import Mathlib

/-!
# RobotWorld: the world store

A shallow embedding of `Model::RobotWorld` (src/RobotWorld.cpp): the store of
robots, way points, goals and walls of one process, its factory, delete,
populate and unpopulate operations, and the lazily created local robot.

The store is a singleton in the source; here every operation takes the store
as an argument and returns the store it leaves behind. Calls of
`notifyObservers()` are counted in the field `notifications`.
-/

namespace Model

/-- Modelled from the spec: the 2D point type `wxPoint` of the widget toolkit,
a pair of machine integers; no arithmetic is done on it by the store. -/
structure wxPoint where
  x : Int
  y : Int
deriving DecidableEq, Repr

/-- Modelled from the spec: `Base::ObjectId`, the process-unique stable
identifier every model object gets at construction and that is never reused.
The header is not part of the sources; identifiers are drawn from a counter. -/
abbrev ObjectId := Nat

/-- Modelled from the spec: the part of `Robot` (Robot.hpp is not part of the
sources) that RobotWorld.cpp reads and writes: `getObjectId()`, `getName()`,
`getPosition()` and `setPosition()`. -/
structure Robot where
  objectId : ObjectId
  name : String
  position : wxPoint
deriving DecidableEq, Repr

/-- Modelled from the spec: the part of `WayPoint` that RobotWorld.cpp reads:
`getObjectId()`, `getName()` and `getPosition()`. -/
structure WayPoint where
  objectId : ObjectId
  name : String
  position : wxPoint
deriving DecidableEq, Repr

/-- Modelled from the spec: the part of `Goal` that RobotWorld.cpp reads:
`getObjectId()`, `getName()` and `getPosition()`. -/
structure Goal where
  objectId : ObjectId
  name : String
  position : wxPoint
deriving DecidableEq, Repr

/-- Modelled from the spec: the part of `Wall` that RobotWorld.cpp reads:
`getObjectId()`, `getPoint1()` and `getPoint2()`. -/
structure Wall where
  objectId : ObjectId
  point1 : wxPoint
  point2 : wxPoint
deriving DecidableEq, Repr

/-- The members of `Model::RobotWorld`: the four ordered collections and the
local robot (`nullptr` is `none`). A shared pointer is modelled by the object
it points to, and an object is identified by its `ObjectId`. Two fields carry
the state the source keeps outside the class: `notifications` counts the calls
of `notifyObservers()`, `nextObjectId` is the identifier the next constructed
model object gets. -/
structure RobotWorld where
  robots : List Robot
  wayPoints : List WayPoint
  goals : List Goal
  walls : List Wall
  localRobot : Option Robot
  notifications : Nat
  nextObjectId : ObjectId
deriving DecidableEq, Repr

namespace RobotWorld

/-- The store right after `RobotWorld::RobotWorld()`: `localRobot(nullptr)` and
four empty vectors; `n` notifications were counted and `k` is the next
identifier. -/
def fresh (n : Nat) (k : ObjectId) : RobotWorld :=
  { robots := [], wayPoints := [], goals := [], walls := [], localRobot := none,
    notifications := n, nextObjectId := k }

/-- Modelled from the spec: `notifyObservers()` of the observer base class (not
part of the sources): one `onWorldChanged()` fan-out, counted. -/
def notifyObservers (w : RobotWorld) : RobotWorld :=
  { w with notifications := w.notifications + 1 }

/-- `RobotWorld::newRobot`, lines 30-41. -/
def newRobot (w : RobotWorld) (aName : String) (aPosition : wxPoint)
    (aNotifyObservers : Bool) : Robot × RobotWorld :=
  let robot : Robot := { objectId := w.nextObjectId, name := aName, position := aPosition }
  let w1 := { w with robots := w.robots ++ [robot], nextObjectId := w.nextObjectId + 1 }
  if aNotifyObservers = true then (robot, notifyObservers w1) else (robot, w1)

/-- `RobotWorld::newWayPoint`, lines 45-57. -/
def newWayPoint (w : RobotWorld) (aName : String) (aPosition : wxPoint)
    (aNotifyObservers : Bool) : WayPoint × RobotWorld :=
  let wayPoint : WayPoint :=
    { objectId := w.nextObjectId, name := aName, position := aPosition }
  let w1 := { w with wayPoints := w.wayPoints ++ [wayPoint],
                     nextObjectId := w.nextObjectId + 1 }
  if aNotifyObservers = true then (wayPoint, notifyObservers w1) else (wayPoint, w1)

/-- `RobotWorld::newGoal`, lines 61-72. -/
def newGoal (w : RobotWorld) (aName : String) (aPosition : wxPoint)
    (aNotifyObservers : Bool) : Goal × RobotWorld :=
  let goal : Goal := { objectId := w.nextObjectId, name := aName, position := aPosition }
  let w1 := { w with goals := w.goals ++ [goal], nextObjectId := w.nextObjectId + 1 }
  if aNotifyObservers = true then (goal, notifyObservers w1) else (goal, w1)

/-- `RobotWorld::newWall`, lines 76-86. -/
def newWall (w : RobotWorld) (aPoint1 aPoint2 : wxPoint)
    (aNotifyObservers : Bool) : Wall × RobotWorld :=
  let wall : Wall := { objectId := w.nextObjectId, point1 := aPoint1, point2 := aPoint2 }
  let w1 := { w with walls := w.walls ++ [wall], nextObjectId := w.nextObjectId + 1 }
  if aNotifyObservers = true then (wall, notifyObservers w1) else (wall, w1)

/-- `RobotWorld::deleteRobot`, lines 90-105: `std::find_if` gives the position
of the first robot with the name of `aRobot`, the length of the vector standing
for `robots.end()`. -/
def deleteRobot (w : RobotWorld) (aRobot : Robot) (aNotifyObservers : Bool) : RobotWorld :=
  let i := w.robots.findIdx (fun r => aRobot.name == r.name)
  if i ≠ w.robots.length then
    let w1 := { w with robots := w.robots.eraseIdx i }
    if aNotifyObservers = true then notifyObservers w1 else w1
  else w

/-- `RobotWorld::deleteWayPoint`, lines 109-125. -/
def deleteWayPoint (w : RobotWorld) (aWayPoint : WayPoint)
    (aNotifyObservers : Bool) : RobotWorld :=
  let i := w.wayPoints.findIdx (fun p => aWayPoint.name == p.name)
  if i ≠ w.wayPoints.length then
    let w1 := { w with wayPoints := w.wayPoints.eraseIdx i }
    if aNotifyObservers = true then notifyObservers w1 else w1
  else w

/-- `RobotWorld::deleteGoal`, lines 129-144. -/
def deleteGoal (w : RobotWorld) (aGoal : Goal) (aNotifyObservers : Bool) : RobotWorld :=
  let i := w.goals.findIdx (fun g => aGoal.name == g.name)
  if i ≠ w.goals.length then
    let w1 := { w with goals := w.goals.eraseIdx i }
    if aNotifyObservers = true then notifyObservers w1 else w1
  else w

/-- `RobotWorld::deleteWall`, lines 148-165. -/
def deleteWall (w : RobotWorld) (aWall : Wall) (aNotifyObservers : Bool) : RobotWorld :=
  let i := w.walls.findIdx
    (fun x => aWall.point1 == x.point1 && aWall.point2 == x.point2)
  if i ≠ w.walls.length then
    let w1 := { w with walls := w.walls.eraseIdx i }
    if aNotifyObservers = true then notifyObservers w1 else w1
  else w

/-- `RobotWorld::getLocalRobot`, lines 568-574. -/
def getLocalRobot (w : RobotWorld) : Robot × RobotWorld :=
  match w.localRobot with
  | none =>
    let (robot, w1) := newRobot w "You" ⟨-100, -100⟩ false
    (robot, { w1 with localRobot := some robot })
  | some robot => (robot, w)

/-- Modelled from the spec: `Robot::setPosition(aPosition, aNotifyObservers)`
(Robot.cpp is not part of the sources) called through the shared pointer
`robot`. The object written to is the one with the identifier of `robot`; the
write is seen through every pointer the store holds to it, in `robots` and in
`localRobot`. The flag is about the observers of the robot, not of the store. -/
def setPosition (w : RobotWorld) (robot : Robot) (aPosition : wxPoint)
    (_aNotifyObservers : Bool) : RobotWorld :=
  let moved (r : Robot) : Robot :=
    if r.objectId = robot.objectId then { r with position := aPosition } else r
  { w with robots := w.robots.map moved, localRobot := w.localRobot.map moved }

end RobotWorld

open RobotWorld

/-- `populateWorld0`, lines 294-307. -/
def populateWorld0 (w : RobotWorld) (fromRequest : Bool) : RobotWorld :=
  if fromRequest then
    let w1 := (newRobot w "Peer" ⟨50, 60⟩ false).2
    (newGoal w1 "PeerGoal" ⟨450, 440⟩ false).2
  else
    let (robot, w1) := getLocalRobot w
    let w2 := setPosition w1 robot ⟨50, 60⟩ false
    (newGoal w2 "YourGoal" ⟨450, 440⟩ false).2

/-- `populateWorld1`, lines 311-324. -/
def populateWorld1 (w : RobotWorld) (fromRequest : Bool) : RobotWorld :=
  if fromRequest then
    let w1 := (newRobot w "Peer" ⟨450, 450⟩ false).2
    (newGoal w1 "PeerGoal" ⟨50, 60⟩ false).2
  else
    let (robot, w1) := getLocalRobot w
    let w2 := setPosition w1 robot ⟨450, 450⟩ false
    (newGoal w2 "YourGoal" ⟨50, 60⟩ false).2

/-- `populateWorld2`, lines 328-341. -/
def populateWorld2 (w : RobotWorld) (fromRequest : Bool) : RobotWorld :=
  if fromRequest then
    let w1 := (newRobot w "Peer" ⟨40, 40⟩ false).2
    (newGoal w1 "PeerGoal" ⟨480, 480⟩ false).2
  else
    let (robot, w1) := getLocalRobot w
    let w2 := setPosition w1 robot ⟨20, 20⟩ false
    (newGoal w2 "YourGoal" ⟨480, 480⟩ false).2

/-- `populateWorld3`, lines 345-358. -/
def populateWorld3 (w : RobotWorld) (fromRequest : Bool) : RobotWorld :=
  if fromRequest then
    let w1 := (newRobot w "Peer" ⟨480, 40⟩ false).2
    (newGoal w1 "PeerGoal" ⟨40, 480⟩ false).2
  else
    let (robot, w1) := getLocalRobot w
    let w2 := setPosition w1 robot ⟨480, 40⟩ false
    (newGoal w2 "YourGoal" ⟨40, 480⟩ false).2

/-- `populateWorld4`, lines 362-366. -/
def populateWorld4 (w : RobotWorld) (fromRequest : Bool) : RobotWorld :=
  let w1 := populateWorld0 w fromRequest
  (newWall w1 ⟨480, 300⟩ ⟨150, 300⟩ false).2

/-- `populateWorld5`, lines 370-374. -/
def populateWorld5 (w : RobotWorld) (fromRequest : Bool) : RobotWorld :=
  let w1 := populateWorld1 w fromRequest
  (newWall w1 ⟨20, 100⟩ ⟨350, 100⟩ false).2

namespace RobotWorld

/-- `RobotWorld::populate`, lines 378-423: the switch, then one
`notifyObservers()`. -/
def populate (w : RobotWorld) (worldNumber : Int) (fromRequest : Bool) : RobotWorld :=
  let w1 :=
    match worldNumber with
    | 0 => populateWorld0 w fromRequest
    | 1 => populateWorld1 w fromRequest
    | 2 => populateWorld2 w fromRequest
    | 3 => populateWorld3 w fromRequest
    | 4 => populateWorld4 w fromRequest
    | 5 => populateWorld5 w fromRequest
    | _ => w
  notifyObservers w1

/-- `RobotWorld::unpopulate(bool)`, lines 427-439. -/
def unpopulate (w : RobotWorld) (aNotifyObservers : Bool) : RobotWorld :=
  let w1 := { w with localRobot := none, robots := [], wayPoints := [], goals := [],
                     walls := [] }
  if aNotifyObservers then notifyObservers w1 else w1

/-- The predicate of the four `std::remove_if` calls of lines 443-499:
`std::find(aKeepObjects.begin(), aKeepObjects.end(), id) == aKeepObjects.end()`,
the length of the vector standing for `end()`. -/
def notKept (aKeepObjects : List ObjectId) (anObjectId : ObjectId) : Bool :=
  aKeepObjects.indexOf anObjectId == aKeepObjects.length

/-- The erase-remove idiom `v.erase(std::remove_if(v.begin(), v.end(), p), v.end())`:
the elements for which `p` is false stay, in their order. -/
def eraseRemoveIf {α : Type} (p : α → Bool) (v : List α) : List α :=
  v.filter (fun a => !p a)

/-- `RobotWorld::unpopulate(const std::vector<Base::ObjectId>&, bool)`, lines
443-499. -/
def unpopulateKeeping (w : RobotWorld) (aKeepObjects : List ObjectId)
    (aNotifyObservers : Bool) : RobotWorld :=
  let w1 :=
    if w.robots.length > 0 then
      { w with robots := eraseRemoveIf (fun r => notKept aKeepObjects r.objectId) w.robots }
    else w
  let w2 :=
    if w1.wayPoints.length > 0 then
      { w1 with wayPoints :=
          eraseRemoveIf (fun p => notKept aKeepObjects p.objectId) w1.wayPoints }
    else w1
  let w3 :=
    if w2.goals.length > 0 then
      { w2 with goals := eraseRemoveIf (fun g => notKept aKeepObjects g.objectId) w2.goals }
    else w2
  let w4 :=
    if w3.walls.length > 0 then
      { w3 with walls := eraseRemoveIf (fun x => notKept aKeepObjects x.objectId) w3.walls }
    else w3
  if aNotifyObservers then notifyObservers w4 else w4

/-- `RobotWorld::getRobot(const std::string&)`, lines 169-178: `std::find_if`
and the dereference of its result, `nullptr` being `none`. -/
def getRobot (w : RobotWorld) (aName : String) : Option Robot :=
  w.robots.find? (fun robot => robot.name == aName)

/-- `RobotWorld::getRobot(const Base::ObjectId&)`, lines 182-192. -/
def getRobotById (w : RobotWorld) (anObjectId : ObjectId) : Option Robot :=
  w.robots.find? (fun robot => robot.objectId == anObjectId)

/-- `RobotWorld::getWayPoint(const std::string&)`, lines 196-206. -/
def getWayPoint (w : RobotWorld) (aName : String) : Option WayPoint :=
  w.wayPoints.find? (fun wayPoint => wayPoint.name == aName)

/-- `RobotWorld::getWayPoint(const Base::ObjectId&)`, lines 210-220. -/
def getWayPointById (w : RobotWorld) (anObjectId : ObjectId) : Option WayPoint :=
  w.wayPoints.find? (fun wayPoint => wayPoint.objectId == anObjectId)

/-- `RobotWorld::getGoal(const std::string&)`, lines 224-233. -/
def getGoal (w : RobotWorld) (aName : String) : Option Goal :=
  w.goals.find? (fun goal => goal.name == aName)

/-- `RobotWorld::getGoal(const Base::ObjectId&)`, lines 237-247. -/
def getGoalById (w : RobotWorld) (anObjectId : ObjectId) : Option Goal :=
  w.goals.find? (fun goal => goal.objectId == anObjectId)

/-- `RobotWorld::getWall(const Base::ObjectId&)`, lines 251-261. -/
def getWall (w : RobotWorld) (anObjectId : ObjectId) : Option Wall :=
  w.walls.find? (fun wall => wall.objectId == anObjectId)

/-- `RobotWorld::asCode`, lines 500-531: the stream `os` is the string built so
far, `<<` appends, and an `int` is printed in decimal with a minus sign when
negative. -/
def asCode (w : RobotWorld) : String :=
  let os := "\n\n"
  let os := w.robots.foldl (fun os ptr =>
    os ++ "RobotWorld::getRobotWorld().newRobot( \"" ++ ptr.name
      ++ "\", wxPoint(" ++ toString ptr.position.x ++ ","
      ++ toString ptr.position.y ++ "),false);\n") os
  let os := w.walls.foldl (fun os ptr =>
    os ++ "RobotWorld::getRobotWorld().newWall( " ++ "wxPoint("
      ++ toString ptr.point1.x ++ "," ++ toString ptr.point1.y ++ "),"
      ++ "wxPoint(" ++ toString ptr.point2.x ++ ","
      ++ toString ptr.point2.y ++ "),false);\n") os
  let os := w.wayPoints.foldl (fun os ptr =>
    os ++ "RobotWorld::getRobotWorld().newWayPoint( \""
      ++ ptr.name ++ "\", wxPoint(" ++ toString ptr.position.x
      ++ "," ++ toString ptr.position.y ++ "),false);\n") os
  let os := w.goals.foldl (fun os ptr =>
    os ++ "RobotWorld::getRobotWorld().newGoal( \"" ++ ptr.name
      ++ "\", wxPoint(" ++ toString ptr.position.x ++ ","
      ++ toString ptr.position.y ++ "),false);\n") os
  os ++ "\n\n"

/-- A factory call as one statement of `asCode` describes it: the factory and
the arguments printed; the notify flag printed is always `false`. -/
inductive FactoryCall where
  | newRobot (aName : String) (aPosition : wxPoint)
  | newWall (aPoint1 aPoint2 : wxPoint)
  | newWayPoint (aName : String) (aPosition : wxPoint)
  | newGoal (aName : String) (aPosition : wxPoint)
deriving DecidableEq, Repr

/-- The text of one statement of `asCode`, as the loops of lines 504-528 print
it. -/
def FactoryCall.text : FactoryCall → String
  | .newRobot aName aPosition =>
    "RobotWorld::getRobotWorld().newRobot( \"" ++ aName
      ++ "\", wxPoint(" ++ toString aPosition.x ++ ","
      ++ toString aPosition.y ++ "),false);\n"
  | .newWall aPoint1 aPoint2 =>
    "RobotWorld::getRobotWorld().newWall( " ++ "wxPoint("
      ++ toString aPoint1.x ++ "," ++ toString aPoint1.y ++ "),"
      ++ "wxPoint(" ++ toString aPoint2.x ++ ","
      ++ toString aPoint2.y ++ "),false);\n"
  | .newWayPoint aName aPosition =>
    "RobotWorld::getRobotWorld().newWayPoint( \""
      ++ aName ++ "\", wxPoint(" ++ toString aPosition.x
      ++ "," ++ toString aPosition.y ++ "),false);\n"
  | .newGoal aName aPosition =>
    "RobotWorld::getRobotWorld().newGoal( \"" ++ aName
      ++ "\", wxPoint(" ++ toString aPosition.x ++ ","
      ++ toString aPosition.y ++ "),false);\n"

/-- The factory calls the statements of `asCode` describe, in the order of the
four loops: robots, walls, way points, goals. -/
def asCodeCalls (w : RobotWorld) : List FactoryCall :=
  w.robots.map (fun ptr => FactoryCall.newRobot ptr.name ptr.position)
    ++ w.walls.map (fun ptr => FactoryCall.newWall ptr.point1 ptr.point2)
    ++ w.wayPoints.map (fun ptr => FactoryCall.newWayPoint ptr.name ptr.position)
    ++ w.goals.map (fun ptr => FactoryCall.newGoal ptr.name ptr.position)

/-- Making the factory call a statement describes, with the flag `false` it
prints. -/
def FactoryCall.replay : FactoryCall → RobotWorld → RobotWorld
  | .newRobot aName aPosition, w => (RobotWorld.newRobot w aName aPosition false).2
  | .newWall aPoint1 aPoint2, w => (RobotWorld.newWall w aPoint1 aPoint2 false).2
  | .newWayPoint aName aPosition, w => (RobotWorld.newWayPoint w aName aPosition false).2
  | .newGoal aName aPosition, w => (RobotWorld.newGoal w aName aPosition false).2

/-- The name and position a statement passes to `newRobot`, if it is one. -/
def FactoryCall.robotArgs : FactoryCall → Option (String × wxPoint)
  | .newRobot aName aPosition => some (aName, aPosition)
  | _ => none

/-- The end points a statement passes to `newWall`, if it is one. -/
def FactoryCall.wallArgs : FactoryCall → Option (wxPoint × wxPoint)
  | .newWall aPoint1 aPoint2 => some (aPoint1, aPoint2)
  | _ => none

/-- The name and position a statement passes to `newWayPoint`, if it is one. -/
def FactoryCall.wayPointArgs : FactoryCall → Option (String × wxPoint)
  | .newWayPoint aName aPosition => some (aName, aPosition)
  | _ => none

/-- The name and position a statement passes to `newGoal`, if it is one. -/
def FactoryCall.goalArgs : FactoryCall → Option (String × wxPoint)
  | .newGoal aName aPosition => some (aName, aPosition)
  | _ => none

/-- Making a sequence of factory calls, in order. -/
def replayAll (calls : List FactoryCall) (w : RobotWorld) : RobotWorld :=
  calls.foldl (fun s c => c.replay s) w

/-! ### Reading the script of asCode back

The text of `asCode` is C++ source: statements that call the factories. The
reader below is not part of the repository; it reads that text the way the
statements spell their calls: the fixed words of a statement, a string literal
without escape sequences for a name, and decimal numbers with an optional
minus sign for the coordinates. -/

/-- The value of a decimal digit character. -/
def digitValue (c : Char) : Option Nat :=
  if c = '0' then some 0 else
  if c = '1' then some 1 else
  if c = '2' then some 2 else
  if c = '3' then some 3 else
  if c = '4' then some 4 else
  if c = '5' then some 5 else
  if c = '6' then some 6 else
  if c = '7' then some 7 else
  if c = '8' then some 8 else
  if c = '9' then some 9 else none

/-- Reading decimal digits from the front of `s`, most significant first, onto
the value `acc` read so far; the rest of `s` is returned with the value. -/
def readDigits : List Char → Nat → Nat × List Char
  | [], acc => (acc, [])
  | c :: s, acc =>
    match digitValue c with
    | some d => readDigits s (acc * 10 + d)
    | none => (acc, c :: s)

/-- Reading a decimal number with an optional minus sign from the front of a
text: at least one digit is required. -/
def readInt : List Char → Option (Int × List Char)
  | [] => none
  | c :: s =>
    if c = '-' then
      match s with
      | [] => none
      | d :: _ =>
        if (digitValue d).isSome then
          some (-((readDigits s 0).1 : Int), (readDigits s 0).2)
        else none
    else if (digitValue c).isSome then
      some (((readDigits (c :: s) 0).1 : Int), (readDigits (c :: s) 0).2)
    else none

/-- Stripping the characters `p` from the front of `s`; absent when `s` does
not start with them. -/
def dropPrefix : List Char → List Char → Option (List Char)
  | [], s => some s
  | _ :: _, [] => none
  | c :: p, d :: s => if c = d then dropPrefix p s else none

/-- Reading a string literal after its opening quote: the characters up to the
closing quote, and the text behind it. A backslash would start an escape
sequence and a line break may not stand in a literal; a literal with either is
not read. -/
def readLiteral : List Char → Option (List Char × List Char)
  | [] => none
  | c :: s =>
    if c = '"' then some ([], s)
    else if c = '\\' ∨ c = '\n' then none
    else
      match readLiteral s with
      | some (name, rest) => some (c :: name, rest)
      | none => none

/-- Reading the arguments `x,y)` of a `wxPoint(`. -/
def readPointArgs (s : List Char) : Option (wxPoint × List Char) := do
  let (x, s) ← readInt s
  let s ← dropPrefix [','] s
  let (y, s) ← readInt s
  let s ← dropPrefix [')'] s
  pure (⟨x, y⟩, s)

/-- Reading what follows the opening quote of the name in a `newRobot`,
`newWayPoint` or `newGoal` statement: the name, the position, the flag and the
end of the line. -/
def readNamedArgs (s : List Char) : Option (String × wxPoint × List Char) := do
  let (name, s) ← readLiteral s
  let s ← dropPrefix (String.data ", wxPoint(") s
  let (p, s) ← readPointArgs s
  let s ← dropPrefix (String.data ",false);\n") s
  pure (String.mk name, p, s)

/-- Reading one statement from the front of a text: the factory call it spells
and the text behind it. -/
def readStatement (s : List Char) : Option (FactoryCall × List Char) := do
  let s ← dropPrefix (String.data "RobotWorld::getRobotWorld().new") s
  match s with
  | 'R' :: s => do
    let s ← dropPrefix (String.data "obot( \"") s
    let (name, p, s) ← readNamedArgs s
    pure (FactoryCall.newRobot name p, s)
  | 'G' :: s => do
    let s ← dropPrefix (String.data "oal( \"") s
    let (name, p, s) ← readNamedArgs s
    pure (FactoryCall.newGoal name p, s)
  | 'W' :: 'a' :: 'y' :: s => do
    let s ← dropPrefix (String.data "Point( \"") s
    let (name, p, s) ← readNamedArgs s
    pure (FactoryCall.newWayPoint name p, s)
  | 'W' :: 'a' :: 'l' :: s => do
    let s ← dropPrefix (String.data "l( wxPoint(") s
    let (p1, s) ← readPointArgs s
    let s ← dropPrefix (String.data ",wxPoint(") s
    let (p2, s) ← readPointArgs s
    let s ← dropPrefix (String.data ",false);\n") s
    pure (FactoryCall.newWall p1 p2, s)
  | _ => none

/-- Reading statements up to the two line breaks that close the text; `fuel`
bounds the number of statements read. -/
def readStatements : Nat → List Char → Option (List FactoryCall)
  | 0, _ => none
  | fuel + 1, s =>
    if s = ['\n', '\n'] then some []
    else
      match readStatement s with
      | some (c, rest) => (readStatements fuel rest).map (fun cs => c :: cs)
      | none => none

/-- The sequence of factory calls a text of `asCode` spells: two line breaks,
the statements, two line breaks. Absent when the text is not of that form. A
statement has at least one character, so the length of the text is fuel
enough. -/
def readCode (text : String) : Option (List FactoryCall) :=
  match dropPrefix ['\n', '\n'] text.data with
  | some s => readStatements s.length s
  | none => none

/-- Whether a string literal without escape sequences spells the name: it
holds no double quote, no backslash and no line break. -/
def plainName (aName : String) : Bool :=
  aName.data.all (fun c => c != '"' && c != '\\' && c != '\n')

/-- Whether the name a factory call passes is plain; a wall has no name. -/
def FactoryCall.plain : FactoryCall → Bool
  | .newRobot aName _ => plainName aName
  | .newWall _ _ => true
  | .newWayPoint aName _ => plainName aName
  | .newGoal aName _ => plainName aName

/-- Every robot, way point and goal of the store has a plain name. -/
def PlainNames (w : RobotWorld) : Prop :=
  (∀ r ∈ w.robots, plainName r.name = true) ∧
  (∀ p ∈ w.wayPoints, plainName p.name = true) ∧
  (∀ g ∈ w.goals, plainName g.name = true)

/-- A store with one robot, as one `newRobot` call on a new store leaves it;
the name of the robot holds double quotes and a line break. -/
def oneQuoted : RobotWorld :=
  { robots := [{ objectId := 0,
                 name := "A\", wxPoint(1,2),false);\nRobotWorld::getRobotWorld().newRobot( \"B",
                 position := ⟨3, 4⟩ }],
    wayPoints := [], goals := [], walls := [], localRobot := none, notifications := 0,
    nextObjectId := 1 }

/-- A store with the two robots "A" at (1,2) and "B" at (3,4), as two
`newRobot` calls on a new store leave it. -/
def twoPlain : RobotWorld :=
  { robots := [{ objectId := 0, name := "A", position := ⟨1, 2⟩ },
               { objectId := 1, name := "B", position := ⟨3, 4⟩ }],
    wayPoints := [], goals := [], walls := [], localRobot := none, notifications := 0,
    nextObjectId := 2 }

/-- The result `found` of a lookup is the first element of `xs` that satisfies
`q`: absent when no element does, and otherwise an element that satisfies `q`
with no such element in front of it. -/
def FirstMatch {α : Type} (q : α → Prop) (xs : List α) (found : Option α) : Prop :=
  match found with
  | none => ∀ x ∈ xs, ¬ q x
  | some m => ∃ l1 l2, xs = l1 ++ m :: l2 ∧ q m ∧ ∀ y ∈ l1, ¬ q y

/-- Two stores hold the same four collections and the same local robot; the
notification count and the identifier counter may differ. -/
def SameContents (a b : RobotWorld) : Prop :=
  a.robots = b.robots ∧ a.wayPoints = b.wayPoints ∧ a.goals = b.goals ∧
    a.walls = b.walls ∧ a.localRobot = b.localRobot

/-- The two branches of layout `worldNumber` use the same coordinates on the
store `e`: the peer robot of the request branch is where the local robot is
after the local branch, the goals are at the same positions, and the walls
have the same end points. -/
def BranchesAgree (e : RobotWorld) (worldNumber : Int) : Prop :=
  (populate e worldNumber true).robots.map (fun r => r.position)
    = [(getLocalRobot (populate e worldNumber false)).1.position] ∧
  (populate e worldNumber true).goals.map (fun g => g.position)
    = (populate e worldNumber false).goals.map (fun g => g.position) ∧
  (populate e worldNumber true).walls.map (fun x => (x.point1, x.point2))
    = (populate e worldNumber false).walls.map (fun x => (x.point1, x.point2))

/-- The local robot, when one is set, is one of the robots of the store. -/
def LocalInStore (w : RobotWorld) : Prop :=
  ∀ r, w.localRobot = some r → r ∈ w.robots

/-- One call a client makes on the store: the operations of RobotWorld.cpp that
can change it, with their arguments. -/
inductive Call where
  | newRobot (aName : String) (aPosition : wxPoint) (aNotifyObservers : Bool)
  | newWayPoint (aName : String) (aPosition : wxPoint) (aNotifyObservers : Bool)
  | newGoal (aName : String) (aPosition : wxPoint) (aNotifyObservers : Bool)
  | newWall (aPoint1 aPoint2 : wxPoint) (aNotifyObservers : Bool)
  | deleteRobot (aRobot : Robot) (aNotifyObservers : Bool)
  | deleteWayPoint (aWayPoint : WayPoint) (aNotifyObservers : Bool)
  | deleteGoal (aGoal : Goal) (aNotifyObservers : Bool)
  | deleteWall (aWall : Wall) (aNotifyObservers : Bool)
  | getLocalRobot
  | populate (worldNumber : Int) (fromRequest : Bool)
  | unpopulate (aNotifyObservers : Bool)
  | unpopulateKeeping (aKeepObjects : List ObjectId) (aNotifyObservers : Bool)
deriving DecidableEq, Repr

/-- The store a call leaves behind. -/
def Call.run : Call → RobotWorld → RobotWorld
  | .newRobot aName aPosition n, w => (RobotWorld.newRobot w aName aPosition n).2
  | .newWayPoint aName aPosition n, w => (RobotWorld.newWayPoint w aName aPosition n).2
  | .newGoal aName aPosition n, w => (RobotWorld.newGoal w aName aPosition n).2
  | .newWall aPoint1 aPoint2 n, w => (RobotWorld.newWall w aPoint1 aPoint2 n).2
  | .deleteRobot aRobot n, w => RobotWorld.deleteRobot w aRobot n
  | .deleteWayPoint aWayPoint n, w => RobotWorld.deleteWayPoint w aWayPoint n
  | .deleteGoal aGoal n, w => RobotWorld.deleteGoal w aGoal n
  | .deleteWall aWall n, w => RobotWorld.deleteWall w aWall n
  | .getLocalRobot, w => (RobotWorld.getLocalRobot w).2
  | .populate worldNumber fromRequest, w => RobotWorld.populate w worldNumber fromRequest
  | .unpopulate n, w => RobotWorld.unpopulate w n
  | .unpopulateKeeping aKeepObjects n, w => RobotWorld.unpopulateKeeping w aKeepObjects n

/-- Whether the call is `unpopulate()`, the overload that clears everything. -/
def Call.isUnpopulate : Call → Bool
  | .unpopulate _ => true
  | _ => false

/-- Whether the call is one of the two that remove robots without looking at
the local robot member: `deleteRobot` and `unpopulate(aKeepObjects)`. -/
def Call.removesRobots : Call → Bool
  | .deleteRobot _ _ => true
  | .unpopulateKeeping _ _ => true
  | _ => false

/-- The store after a sequence of calls, made in order. -/
def runCalls (calls : List Call) (w : RobotWorld) : RobotWorld :=
  calls.foldl (fun s c => c.run s) w

/-- The list `after` is `before` without the first element that satisfies `p`:
the elements in front of it and behind it keep their order. -/
def ErasedFirst {α : Type} (p : α → Prop) (before after : List α) : Prop :=
  ∃ l1 m l2, before = l1 ++ m :: l2 ∧ p m ∧ (∀ x ∈ l1, ¬ p x) ∧ after = l1 ++ l2

/-- A store with one entity of each kind, as four factory calls on a new store
leave it. -/
def oneOfEach : RobotWorld :=
  { robots := [{ objectId := 0, name := "Robot", position := ⟨10, 20⟩ }],
    wayPoints := [{ objectId := 1, name := "WP", position := ⟨30, 40⟩ }],
    goals := [{ objectId := 2, name := "Goal", position := ⟨50, 60⟩ }],
    walls := [{ objectId := 3, point1 := ⟨0, 0⟩, point2 := ⟨0, 100⟩ }],
    localRobot := none, notifications := 4, nextObjectId := 4 }

/-- A store in which names and end points repeat: two robots "Peer", two goals
"PeerGoal", two way points "WP" and two walls between the same end points, as
eight factory calls on a new store leave it. -/
def twice : RobotWorld :=
  { robots := [{ objectId := 0, name := "Peer", position := ⟨50, 60⟩ },
               { objectId := 4, name := "Peer", position := ⟨50, 60⟩ }],
    wayPoints := [{ objectId := 2, name := "WP", position := ⟨1, 1⟩ },
                  { objectId := 6, name := "WP", position := ⟨2, 2⟩ }],
    goals := [{ objectId := 1, name := "PeerGoal", position := ⟨450, 440⟩ },
              { objectId := 5, name := "PeerGoal", position := ⟨450, 440⟩ }],
    walls := [{ objectId := 3, point1 := ⟨480, 300⟩, point2 := ⟨150, 300⟩ },
              { objectId := 7, point1 := ⟨480, 300⟩, point2 := ⟨150, 300⟩ }],
    localRobot := none, notifications := 0, nextObjectId := 8 }

end RobotWorld

/-! ## Library facts about the STL idioms -/

section Idioms

variable {α : Type}

/-- When some element satisfies `p`, erasing at the position `std::find_if`
returns splits the vector around the first such element. -/
theorem eraseIdx_findIdx_split (p : α → Bool) :
    ∀ xs : List α, (∃ x ∈ xs, p x = true) →
      ∃ l1 m l2, xs = l1 ++ m :: l2 ∧ p m = true ∧ (∀ x ∈ l1, p x = false) ∧
        xs.eraseIdx (xs.findIdx p) = l1 ++ l2 := by
  intro xs
  induction xs with
  | nil => rintro ⟨x, hx, _⟩; cases hx
  | cons a t ih =>
    intro hex
    cases hpa : p a with
    | true =>
      refine ⟨[], a, t, rfl, hpa, ?_, ?_⟩
      · intro x hx; cases hx
      · simp [List.findIdx_cons, hpa]
    | false =>
      have hex2 : ∃ x ∈ t, p x = true := by
        obtain ⟨x, hx, hpx⟩ := hex
        rcases List.mem_cons.mp hx with rfl | hxt
        · rw [hpa] at hpx; cases hpx
        · exact ⟨x, hxt, hpx⟩
      obtain ⟨l1, m, l2, hsplit, hm, hl1, herase⟩ := ih hex2
      refine ⟨a :: l1, m, l2, ?_, hm, ?_, ?_⟩
      · simp [hsplit]
      · intro x hx
        rcases List.mem_cons.mp hx with rfl | hxl
        · exact hpa
        · exact hl1 x hxl
      · simp [List.findIdx_cons, hpa, herase]

/-- The position `std::find_if` returns is `end()` exactly when no element
satisfies the predicate. -/
theorem findIdx_ne_length_iff (p : α → Bool) (xs : List α) :
    xs.findIdx p ≠ xs.length ↔ ∃ x ∈ xs, p x = true := by
  constructor
  · intro h
    by_contra hne
    apply h
    apply List.findIdx_eq_length_of_false
    intro x hx
    cases hpx : p x with
    | false => rfl
    | true => exact absurd ⟨x, hx, hpx⟩ hne
  · intro h
    exact Nat.ne_of_lt (List.findIdx_lt_length_of_exists h)

/-- The erase-remove idiom with the keep-list predicate is a filter on
membership of the identifier in the keep list. -/
theorem eraseRemoveIf_notKept (keep : List Model.ObjectId) (f : α → Model.ObjectId)
    (v : List α) :
    Model.RobotWorld.eraseRemoveIf (fun a => Model.RobotWorld.notKept keep (f a)) v
      = v.filter (fun a => decide (f a ∈ keep)) := by
  unfold Model.RobotWorld.eraseRemoveIf
  apply List.filter_congr
  intro a _
  by_cases h : f a ∈ keep
  · have : List.indexOf (f a) keep ≠ keep.length := fun e => List.indexOf_eq_length.mp e h
    simp [Model.RobotWorld.notKept, h, this]
  · have : List.indexOf (f a) keep = keep.length := List.indexOf_eq_length.mpr h
    simp [Model.RobotWorld.notKept, h, this]

/-- What `v.erase(std::find_if(v.begin(), v.end(), p))` guarded by
`i != v.end()` does: nothing matches and the iterator is `end()`, or the first
match is the one erased. -/
theorem find_if_erase_cases (p : α → Bool) (q : α → Prop) (hpq : ∀ a, p a = true ↔ q a)
    (xs : List α) :
    ((∀ x ∈ xs, ¬ q x) ∧ xs.findIdx p = xs.length) ∨
    (xs.findIdx p ≠ xs.length ∧
      Model.RobotWorld.ErasedFirst q xs (xs.eraseIdx (xs.findIdx p))) := by
  by_cases hex : ∃ x ∈ xs, p x = true
  · right
    refine ⟨(findIdx_ne_length_iff p xs).mpr hex, ?_⟩
    obtain ⟨l1, m, l2, hsplit, hm, hl1, herase⟩ := eraseIdx_findIdx_split p xs hex
    refine ⟨l1, m, l2, hsplit, (hpq m).mp hm, ?_, herase⟩
    intro x hx hq
    have := hl1 x hx
    rw [(hpq x).mpr hq] at this
    cases this
  · left
    have hnone : ∀ x ∈ xs, ¬ q x := fun x hx hq => hex ⟨x, hx, (hpq x).mpr hq⟩
    refine ⟨hnone, ?_⟩
    by_contra hne
    exact hex ((findIdx_ne_length_iff p xs).mp hne)

/-- Erasing the first match shortens the list by one. -/
theorem ErasedFirst.length_succ {q : α → Prop} {before after : List α}
    (h : Model.RobotWorld.ErasedFirst q before after) :
    after.length + 1 = before.length := by
  obtain ⟨l1, m, l2, hb, _, _, ha⟩ := h
  subst hb ha
  simp
  omega

/-- A list from which the first match was erased had a match. -/
theorem ErasedFirst.exists_match {q : α → Prop} {before after : List α}
    (h : Model.RobotWorld.ErasedFirst q before after) : ∃ x ∈ before, q x := by
  obtain ⟨l1, m, l2, hb, hm, _, _⟩ := h
  exact ⟨m, by simp [hb], hm⟩

/-- What `std::find_if` followed by the dereference of a result other than
`end()` returns: the first element that satisfies the predicate, if any. -/
theorem find?_firstMatch (p : α → Bool) (q : α → Prop) (hpq : ∀ a, p a = true ↔ q a) :
    ∀ xs : List α, Model.RobotWorld.FirstMatch q xs (xs.find? p) := by
  intro xs
  induction xs with
  | nil => intro x hx; cases hx
  | cons a t ih =>
    cases hpa : p a with
    | true =>
      rw [List.find?_cons_of_pos _ hpa]
      exact ⟨[], t, rfl, (hpq a).mp hpa, fun y hy => by cases hy⟩
    | false =>
      have hqa : ¬ q a := fun hq => by rw [(hpq a).mpr hq] at hpa; cases hpa
      rw [List.find?_cons_of_neg _ (by simp [hpa])]
      cases hf : t.find? p with
      | none =>
        rw [hf] at ih
        intro x hx
        rcases List.mem_cons.mp hx with rfl | hxt
        · exact hqa
        · exact ih x hxt
      | some m =>
        rw [hf] at ih
        obtain ⟨l1, l2, hsplit, hm, hl1⟩ := ih
        refine ⟨a :: l1, l2, by simp [hsplit], hm, ?_⟩
        intro y hy
        rcases List.mem_cons.mp hy with rfl | hyl
        · exact hqa
        · exact hl1 y hyl

/-- A lookup that is the first match is absent exactly when nothing matches. -/
theorem FirstMatch.none_iff {q : α → Prop} {xs : List α} {found : Option α}
    (h : Model.RobotWorld.FirstMatch q xs found) : found = none ↔ ∀ x ∈ xs, ¬ q x := by
  cases found with
  | none => exact ⟨fun _ => h, fun _ => rfl⟩
  | some m =>
    obtain ⟨l1, l2, hsplit, hm, _⟩ := h
    constructor
    · intro e; cases e
    · intro hnone
      exact absurd hm (hnone m (by simp [hsplit]))

/-- Appending a list of strings to a start string, one by one. -/
theorem foldl_append_init (l : List String) :
    ∀ s : String, l.foldl (fun r x => r ++ x) s = s ++ l.foldl (fun r x => r ++ x) "" := by
  induction l with
  | nil => intro s; simp
  | cons a t ih =>
    intro s
    simp only [List.foldl_cons]
    rw [ih (s ++ a), ih ("" ++ a)]
    simp [String.append_assoc]

/-- The concatenation of a list of strings starts with its first string. -/
theorem join_cons (a : String) (l : List String) :
    String.join (a :: l) = a ++ String.join l := by
  unfold String.join
  simp only [List.foldl_cons]
  rw [foldl_append_init]
  simp

/-- The concatenation of two lists of strings, one after the other. -/
theorem join_append (l1 l2 : List String) :
    String.join (l1 ++ l2) = String.join l1 ++ String.join l2 := by
  induction l1 with
  | nil => simp [String.join]
  | cons a t ih => simp [join_cons, ih, String.append_assoc]

/-- A range-for loop that streams `f a` for every element into `os` appends
the concatenation of the texts `f a`, in order. -/
theorem foldl_stream (f : α → String) (l : List α) :
    ∀ os : String, l.foldl (fun os a => os ++ f a) os = os ++ String.join (l.map f) := by
  induction l with
  | nil => intro os; simp [String.join]
  | cons a t ih =>
    intro os
    simp only [List.foldl_cons, List.map_cons, join_cons]
    rw [ih]
    simp [String.append_assoc]

/-- Selecting nothing leaves the empty list. -/
theorem filterMap_fun_none {β : Type} (l : List α) :
    l.filterMap (fun _ => (none : Option β)) = [] := by
  induction l with
  | nil => rfl
  | cons a t ih => simp [List.filterMap_cons, ih]

/-- Selecting something of every element is a map. -/
theorem filterMap_fun_some {β : Type} (f : α → β) (l : List α) :
    l.filterMap (fun x => some (f x)) = l.map f := by
  induction l with
  | nil => rfl
  | cons a t ih => simp [List.filterMap_cons, ih]

end Idioms

namespace RobotWorld

/-! ## The sample stores are reachable through the factory operations -/

/-- The store `oneOfEach` is what four notifying factory calls make of a new
store. -/
theorem oneOfEach_eq_calls :
    oneOfEach =
      (newWall (newGoal (newWayPoint (newRobot (fresh 0 0) "Robot" ⟨10, 20⟩ true).2
        "WP" ⟨30, 40⟩ true).2 "Goal" ⟨50, 60⟩ true).2 ⟨0, 0⟩ ⟨0, 100⟩ true).2 := by
  rfl

/-- The store `twice` is what eight silent factory calls make of a new
store. -/
theorem twice_eq_calls :
    twice =
      (newWall (newWayPoint (newGoal (newRobot
        (newWall (newWayPoint (newGoal (newRobot (fresh 0 0)
          "Peer" ⟨50, 60⟩ false).2 "PeerGoal" ⟨450, 440⟩ false).2
          "WP" ⟨1, 1⟩ false).2 ⟨480, 300⟩ ⟨150, 300⟩ false).2
          "Peer" ⟨50, 60⟩ false).2 "PeerGoal" ⟨450, 440⟩ false).2
          "WP" ⟨2, 2⟩ false).2 ⟨480, 300⟩ ⟨150, 300⟩ false).2 := by
  rfl

/-! ## The delete operations -/

/-- The two outcomes of `deleteRobot`: no robot has the name of the handle and
the store is untouched, or the first robot with that name is erased, one
notification is sent when asked for, and nothing else changes. -/
theorem deleteRobot_cases (w : RobotWorld) (aRobot : Robot) (n : Bool) :
    ((∀ x ∈ w.robots, ¬ x.name = aRobot.name) ∧ deleteRobot w aRobot n = w) ∨
    (ErasedFirst (fun x => x.name = aRobot.name) w.robots (deleteRobot w aRobot n).robots ∧
      (deleteRobot w aRobot n).notifications = w.notifications + (if n then 1 else 0) ∧
      (deleteRobot w aRobot n).wayPoints = w.wayPoints ∧
      (deleteRobot w aRobot n).goals = w.goals ∧
      (deleteRobot w aRobot n).walls = w.walls ∧
      (deleteRobot w aRobot n).localRobot = w.localRobot) := by
  rcases find_if_erase_cases (fun r => aRobot.name == r.name) (fun x => x.name = aRobot.name)
    (by intro a; simp only [beq_iff_eq]; exact eq_comm) w.robots with ⟨hnone, hidx⟩ | ⟨hidx, herased⟩
  · left
    exact ⟨hnone, by simp [deleteRobot, hidx]⟩
  · right
    cases n <;> simp [deleteRobot, hidx, notifyObservers] <;> exact herased

/-- The two outcomes of `deleteWayPoint`. -/
theorem deleteWayPoint_cases (w : RobotWorld) (aWayPoint : WayPoint) (n : Bool) :
    ((∀ x ∈ w.wayPoints, ¬ x.name = aWayPoint.name) ∧ deleteWayPoint w aWayPoint n = w) ∨
    (ErasedFirst (fun x => x.name = aWayPoint.name) w.wayPoints
        (deleteWayPoint w aWayPoint n).wayPoints ∧
      (deleteWayPoint w aWayPoint n).notifications = w.notifications + (if n then 1 else 0) ∧
      (deleteWayPoint w aWayPoint n).robots = w.robots ∧
      (deleteWayPoint w aWayPoint n).goals = w.goals ∧
      (deleteWayPoint w aWayPoint n).walls = w.walls ∧
      (deleteWayPoint w aWayPoint n).localRobot = w.localRobot) := by
  rcases find_if_erase_cases (fun p => aWayPoint.name == p.name)
    (fun x => x.name = aWayPoint.name)
    (by intro a; simp only [beq_iff_eq]; exact eq_comm) w.wayPoints with ⟨hnone, hidx⟩ | ⟨hidx, herased⟩
  · left
    exact ⟨hnone, by simp [deleteWayPoint, hidx]⟩
  · right
    cases n <;> simp [deleteWayPoint, hidx, notifyObservers] <;> exact herased

/-- The two outcomes of `deleteGoal`. -/
theorem deleteGoal_cases (w : RobotWorld) (aGoal : Goal) (n : Bool) :
    ((∀ x ∈ w.goals, ¬ x.name = aGoal.name) ∧ deleteGoal w aGoal n = w) ∨
    (ErasedFirst (fun x => x.name = aGoal.name) w.goals (deleteGoal w aGoal n).goals ∧
      (deleteGoal w aGoal n).notifications = w.notifications + (if n then 1 else 0) ∧
      (deleteGoal w aGoal n).robots = w.robots ∧
      (deleteGoal w aGoal n).wayPoints = w.wayPoints ∧
      (deleteGoal w aGoal n).walls = w.walls ∧
      (deleteGoal w aGoal n).localRobot = w.localRobot) := by
  rcases find_if_erase_cases (fun g => aGoal.name == g.name) (fun x => x.name = aGoal.name)
    (by intro a; simp only [beq_iff_eq]; exact eq_comm) w.goals with ⟨hnone, hidx⟩ | ⟨hidx, herased⟩
  · left
    exact ⟨hnone, by simp [deleteGoal, hidx]⟩
  · right
    cases n <;> simp [deleteGoal, hidx, notifyObservers] <;> exact herased

/-- The two outcomes of `deleteWall`, the match being on both end points. -/
theorem deleteWall_cases (w : RobotWorld) (aWall : Wall) (n : Bool) :
    ((∀ x ∈ w.walls, ¬ (x.point1 = aWall.point1 ∧ x.point2 = aWall.point2)) ∧
      deleteWall w aWall n = w) ∨
    (ErasedFirst (fun x => x.point1 = aWall.point1 ∧ x.point2 = aWall.point2) w.walls
        (deleteWall w aWall n).walls ∧
      (deleteWall w aWall n).notifications = w.notifications + (if n then 1 else 0) ∧
      (deleteWall w aWall n).robots = w.robots ∧
      (deleteWall w aWall n).wayPoints = w.wayPoints ∧
      (deleteWall w aWall n).goals = w.goals ∧
      (deleteWall w aWall n).localRobot = w.localRobot) := by
  rcases find_if_erase_cases
    (fun x => aWall.point1 == x.point1 && aWall.point2 == x.point2)
    (fun x => x.point1 = aWall.point1 ∧ x.point2 = aWall.point2)
    (by
      intro a
      simp only [Bool.and_eq_true, beq_iff_eq]
      constructor <;> rintro ⟨h1, h2⟩ <;> exact ⟨h1.symm, h2.symm⟩) w.walls with ⟨hnone, hidx⟩ | ⟨hidx, herased⟩
  · left
    exact ⟨hnone, by simp [deleteWall, hidx]⟩
  · right
    cases n <;> simp [deleteWall, hidx, notifyObservers] <;> exact herased

/-! ## unpopulate -/

/-- C1: for every store state and either value of the notify flag, after
`unpopulate()` the robots, walls, goals and way points collections are all
empty and the local robot is absent. -/
theorem unpopulate_clears_everything (w : RobotWorld) (aNotifyObservers : Bool) :
    (unpopulate w aNotifyObservers).robots = [] ∧
    (unpopulate w aNotifyObservers).walls = [] ∧
    (unpopulate w aNotifyObservers).goals = [] ∧
    (unpopulate w aNotifyObservers).wayPoints = [] ∧
    (unpopulate w aNotifyObservers).localRobot = none := by
  cases aNotifyObservers <;> simp [unpopulate, notifyObservers]

/-- The collections `unpopulate(aKeepObjects)` leaves, and the members it does
not touch. -/
theorem unpopulateKeeping_fields (w : RobotWorld) (keep : List ObjectId)
    (aNotifyObservers : Bool) :
    (unpopulateKeeping w keep aNotifyObservers).robots
        = w.robots.filter (fun r => decide (r.objectId ∈ keep)) ∧
    (unpopulateKeeping w keep aNotifyObservers).wayPoints
        = w.wayPoints.filter (fun p => decide (p.objectId ∈ keep)) ∧
    (unpopulateKeeping w keep aNotifyObservers).goals
        = w.goals.filter (fun g => decide (g.objectId ∈ keep)) ∧
    (unpopulateKeeping w keep aNotifyObservers).walls
        = w.walls.filter (fun x => decide (x.objectId ∈ keep)) ∧
    (unpopulateKeeping w keep aNotifyObservers).localRobot = w.localRobot := by
  obtain ⟨rs, ps, gs, xs, l, n, k⟩ := w
  cases rs <;> cases ps <;> cases gs <;> cases xs <;> cases aNotifyObservers <;>
    simp [unpopulateKeeping, notifyObservers, eraseRemoveIf_notKept]

/-- C2, evaluated on the store that holds just the lazily created local robot:
`unpopulate({})` empties the four collections as `unpopulate()` does, but it
leaves the local robot set, where `unpopulate()` resets it. -/
theorem unpopulateKeeping_nil_leaves_localRobot :
    (unpopulateKeeping (getLocalRobot (fresh 0 0)).2 [] true).robots = [] ∧
    (unpopulateKeeping (getLocalRobot (fresh 0 0)).2 [] true).wayPoints = [] ∧
    (unpopulateKeeping (getLocalRobot (fresh 0 0)).2 [] true).goals = [] ∧
    (unpopulateKeeping (getLocalRobot (fresh 0 0)).2 [] true).walls = [] ∧
    (unpopulateKeeping (getLocalRobot (fresh 0 0)).2 [] true).localRobot
      = some { objectId := 0, name := "You", position := ⟨-100, -100⟩ } ∧
    (unpopulate (getLocalRobot (fresh 0 0)).2 true).localRobot = none ∧
    unpopulateKeeping (getLocalRobot (fresh 0 0)).2 [] true
      ≠ unpopulate (getLocalRobot (fresh 0 0)).2 true := by
  refine ⟨rfl, rfl, rfl, rfl, rfl, rfl, ?_⟩
  intro h
  have h2 := congrArg RobotWorld.localRobot h
  revert h2
  simp [unpopulateKeeping, unpopulate, getLocalRobot, newRobot, fresh, notifyObservers,
    eraseRemoveIf, notKept]

/-- C3: for every store and keep list, `unpopulate(aKeepObjects)` leaves in
each collection exactly the entities whose identifier occurs in the keep list,
in their original order, each collection filtered by itself; when the keep list
holds every identifier in the store, the four collections are unchanged. -/
theorem unpopulateKeeping_filters (w : RobotWorld) (keep : List ObjectId)
    (aNotifyObservers : Bool) :
    ((unpopulateKeeping w keep aNotifyObservers).robots
        = w.robots.filter (fun r => decide (r.objectId ∈ keep)) ∧
     (unpopulateKeeping w keep aNotifyObservers).wayPoints
        = w.wayPoints.filter (fun p => decide (p.objectId ∈ keep)) ∧
     (unpopulateKeeping w keep aNotifyObservers).goals
        = w.goals.filter (fun g => decide (g.objectId ∈ keep)) ∧
     (unpopulateKeeping w keep aNotifyObservers).walls
        = w.walls.filter (fun x => decide (x.objectId ∈ keep))) ∧
    ((∀ r ∈ w.robots, r.objectId ∈ keep) → (∀ p ∈ w.wayPoints, p.objectId ∈ keep) →
     (∀ g ∈ w.goals, g.objectId ∈ keep) → (∀ x ∈ w.walls, x.objectId ∈ keep) →
      (unpopulateKeeping w keep aNotifyObservers).robots = w.robots ∧
      (unpopulateKeeping w keep aNotifyObservers).wayPoints = w.wayPoints ∧
      (unpopulateKeeping w keep aNotifyObservers).goals = w.goals ∧
      (unpopulateKeeping w keep aNotifyObservers).walls = w.walls) := by
  obtain ⟨hr, hp, hg, hx, _⟩ := unpopulateKeeping_fields w keep aNotifyObservers
  refine ⟨⟨hr, hp, hg, hx⟩, ?_⟩
  intro kr kp kg kx
  rw [hr, hp, hg, hx]
  refine ⟨?_, ?_, ?_, ?_⟩ <;> rw [List.filter_eq_self] <;> intro a ha <;> simp_all

/-- C3 at a concrete store: with the keep list `[3, 2, 1, 0]`, which holds every
identifier of `oneOfEach`, the four collections are unchanged. -/
theorem unpopulateKeeping_filters_witness :
    (unpopulateKeeping oneOfEach [3, 2, 1, 0] true).robots = oneOfEach.robots ∧
    (unpopulateKeeping oneOfEach [3, 2, 1, 0] true).wayPoints = oneOfEach.wayPoints ∧
    (unpopulateKeeping oneOfEach [3, 2, 1, 0] true).goals = oneOfEach.goals ∧
    (unpopulateKeeping oneOfEach [3, 2, 1, 0] true).walls = oneOfEach.walls :=
  (unpopulateKeeping_filters oneOfEach [3, 2, 1, 0] true).2
    (by decide) (by decide) (by decide) (by decide)

/-! ## Claims about the delete operations -/

/-- C4 as stated fails: in the store `twice`, deleting with the second robot
"Peer" (identifier 4) as handle erases the first robot "Peer" (identifier 0)
and keeps the handle; the same happens to goals and way points. So the entity
removed need not have the identifier of the handle. -/
theorem delete_by_identifier_counterexample :
    (deleteRobot twice { objectId := 4, name := "Peer", position := ⟨50, 60⟩ } true).robots
      = [{ objectId := 4, name := "Peer", position := ⟨50, 60⟩ }] ∧
    (deleteGoal twice { objectId := 5, name := "PeerGoal", position := ⟨450, 440⟩ } true).goals
      = [{ objectId := 5, name := "PeerGoal", position := ⟨450, 440⟩ }] ∧
    (deleteWayPoint twice { objectId := 6, name := "WP", position := ⟨2, 2⟩ } true).wayPoints
      = [{ objectId := 6, name := "WP", position := ⟨2, 2⟩ }] ∧
    ¬ (∀ (w : RobotWorld) (aRobot : Robot) (n : Bool) (x : Robot),
        x ∈ w.robots → x ∉ (deleteRobot w aRobot n).robots → x.objectId = aRobot.objectId) ∧
    ¬ (∀ (w : RobotWorld) (aGoal : Goal) (n : Bool) (x : Goal),
        x ∈ w.goals → x ∉ (deleteGoal w aGoal n).goals → x.objectId = aGoal.objectId) ∧
    ¬ (∀ (w : RobotWorld) (aWayPoint : WayPoint) (n : Bool) (x : WayPoint),
        x ∈ w.wayPoints → x ∉ (deleteWayPoint w aWayPoint n).wayPoints →
          x.objectId = aWayPoint.objectId) := by
  refine ⟨by decide, by decide, by decide, ?_, ?_, ?_⟩
  · intro h
    exact absurd (h twice { objectId := 4, name := "Peer", position := ⟨50, 60⟩ } true
      { objectId := 0, name := "Peer", position := ⟨50, 60⟩ } (by decide) (by decide))
      (by decide)
  · intro h
    exact absurd (h twice { objectId := 5, name := "PeerGoal", position := ⟨450, 440⟩ } true
      { objectId := 1, name := "PeerGoal", position := ⟨450, 440⟩ } (by decide) (by decide))
      (by decide)
  · intro h
    exact absurd (h twice { objectId := 6, name := "WP", position := ⟨2, 2⟩ } true
      { objectId := 2, name := "WP", position := ⟨1, 1⟩ } (by decide) (by decide))
      (by decide)

/-- C4 as amended: `deleteRobot`, `deleteGoal` and `deleteWayPoint` match the
entity to remove by name. For every store and handle, either no entity of the
collection has the name of the handle and the collection is unchanged, or the
entity removed is the first in insertion order whose name equals the name of
the handle, whatever its identifier; an entity with another name is never
removed. -/
theorem delete_matches_by_name (w : RobotWorld) (aRobot : Robot) (aGoal : Goal)
    (aWayPoint : WayPoint) (n : Bool) :
    (((∀ x ∈ w.robots, ¬ x.name = aRobot.name) ∧ (deleteRobot w aRobot n).robots = w.robots) ∨
      ErasedFirst (fun x => x.name = aRobot.name) w.robots (deleteRobot w aRobot n).robots) ∧
    (((∀ x ∈ w.goals, ¬ x.name = aGoal.name) ∧ (deleteGoal w aGoal n).goals = w.goals) ∨
      ErasedFirst (fun x => x.name = aGoal.name) w.goals (deleteGoal w aGoal n).goals) ∧
    (((∀ x ∈ w.wayPoints, ¬ x.name = aWayPoint.name) ∧
        (deleteWayPoint w aWayPoint n).wayPoints = w.wayPoints) ∨
      ErasedFirst (fun x => x.name = aWayPoint.name) w.wayPoints
        (deleteWayPoint w aWayPoint n).wayPoints) := by
  refine ⟨?_, ?_, ?_⟩
  · rcases deleteRobot_cases w aRobot n with ⟨hnone, heq⟩ | ⟨herased, _⟩
    · exact Or.inl ⟨hnone, by rw [heq]⟩
    · exact Or.inr herased
  · rcases deleteGoal_cases w aGoal n with ⟨hnone, heq⟩ | ⟨herased, _⟩
    · exact Or.inl ⟨hnone, by rw [heq]⟩
    · exact Or.inr herased
  · rcases deleteWayPoint_cases w aWayPoint n with ⟨hnone, heq⟩ | ⟨herased, _⟩
    · exact Or.inl ⟨hnone, by rw [heq]⟩
    · exact Or.inr herased

/-- C5: for every store and wall handle, `deleteWall` leaves the robots, goals
and way points unchanged, and when some wall has both end points of the handle
it removes exactly one wall, the first such wall in insertion order, the other
walls keeping their order. -/
theorem deleteWall_removes_first_match (w : RobotWorld) (aWall : Wall) (n : Bool) :
    ((∃ x ∈ w.walls, x.point1 = aWall.point1 ∧ x.point2 = aWall.point2) →
      ErasedFirst (fun x => x.point1 = aWall.point1 ∧ x.point2 = aWall.point2) w.walls
        (deleteWall w aWall n).walls ∧
      (deleteWall w aWall n).walls.length + 1 = w.walls.length) ∧
    (deleteWall w aWall n).robots = w.robots ∧
    (deleteWall w aWall n).goals = w.goals ∧
    (deleteWall w aWall n).wayPoints = w.wayPoints := by
  rcases deleteWall_cases w aWall n with ⟨hnone, heq⟩ | ⟨herased, _, hr, hp, hg, _⟩
  · refine ⟨?_, by rw [heq], by rw [heq], by rw [heq]⟩
    rintro ⟨x, hx, hm⟩
    exact absurd hm (hnone x hx)
  · exact ⟨fun _ => ⟨herased, ErasedFirst.length_succ herased⟩, hr, hg, hp⟩

/-- C5 at a concrete store: `twice` holds two walls between (480,300) and
(150,300); deleting with such a wall as handle removes one of them, the first,
and one wall is left. -/
theorem deleteWall_removes_first_match_witness :
    ErasedFirst (fun x : Wall => x.point1 = ⟨480, 300⟩ ∧ x.point2 = ⟨150, 300⟩) twice.walls
      (deleteWall twice { objectId := 9, point1 := ⟨480, 300⟩, point2 := ⟨150, 300⟩ }
        true).walls ∧
    (deleteWall twice { objectId := 9, point1 := ⟨480, 300⟩, point2 := ⟨150, 300⟩ }
        true).walls.length + 1 = twice.walls.length :=
  (deleteWall_removes_first_match twice
    { objectId := 9, point1 := ⟨480, 300⟩, point2 := ⟨150, 300⟩ } true).1
    ⟨{ objectId := 3, point1 := ⟨480, 300⟩, point2 := ⟨150, 300⟩ }, by decide, rfl, rfl⟩

/-- C6: for each of `deleteRobot`, `deleteWall`, `deleteGoal` and
`deleteWayPoint`, when no entity of the collection matches the handle (by name,
for walls by both end points) the call returns the store as it was, so every
collection is unchanged and no notification is counted, whatever the notify
flag; and a call that counts a notification has removed one entity. -/
theorem delete_absent_is_noop (w : RobotWorld) (aRobot : Robot) (aWall : Wall)
    (aGoal : Goal) (aWayPoint : WayPoint) (n : Bool) :
    ((∀ x ∈ w.robots, ¬ x.name = aRobot.name) → deleteRobot w aRobot n = w) ∧
    ((∀ x ∈ w.walls, ¬ (x.point1 = aWall.point1 ∧ x.point2 = aWall.point2)) →
      deleteWall w aWall n = w) ∧
    ((∀ x ∈ w.goals, ¬ x.name = aGoal.name) → deleteGoal w aGoal n = w) ∧
    ((∀ x ∈ w.wayPoints, ¬ x.name = aWayPoint.name) → deleteWayPoint w aWayPoint n = w) ∧
    ((deleteRobot w aRobot n).notifications ≠ w.notifications →
      (deleteRobot w aRobot n).robots.length + 1 = w.robots.length) ∧
    ((deleteWall w aWall n).notifications ≠ w.notifications →
      (deleteWall w aWall n).walls.length + 1 = w.walls.length) ∧
    ((deleteGoal w aGoal n).notifications ≠ w.notifications →
      (deleteGoal w aGoal n).goals.length + 1 = w.goals.length) ∧
    ((deleteWayPoint w aWayPoint n).notifications ≠ w.notifications →
      (deleteWayPoint w aWayPoint n).wayPoints.length + 1 = w.wayPoints.length) := by
  refine ⟨?_, ?_, ?_, ?_, ?_, ?_, ?_, ?_⟩
  · intro hnone
    rcases deleteRobot_cases w aRobot n with ⟨_, heq⟩ | ⟨herased, _⟩
    · exact heq
    · obtain ⟨x, hx, hm⟩ := ErasedFirst.exists_match herased
      exact absurd hm (hnone x hx)
  · intro hnone
    rcases deleteWall_cases w aWall n with ⟨_, heq⟩ | ⟨herased, _⟩
    · exact heq
    · obtain ⟨x, hx, hm⟩ := ErasedFirst.exists_match herased
      exact absurd hm (hnone x hx)
  · intro hnone
    rcases deleteGoal_cases w aGoal n with ⟨_, heq⟩ | ⟨herased, _⟩
    · exact heq
    · obtain ⟨x, hx, hm⟩ := ErasedFirst.exists_match herased
      exact absurd hm (hnone x hx)
  · intro hnone
    rcases deleteWayPoint_cases w aWayPoint n with ⟨_, heq⟩ | ⟨herased, _⟩
    · exact heq
    · obtain ⟨x, hx, hm⟩ := ErasedFirst.exists_match herased
      exact absurd hm (hnone x hx)
  · intro hnotified
    rcases deleteRobot_cases w aRobot n with ⟨_, heq⟩ | ⟨herased, _⟩
    · rw [heq] at hnotified; exact absurd rfl hnotified
    · exact ErasedFirst.length_succ herased
  · intro hnotified
    rcases deleteWall_cases w aWall n with ⟨_, heq⟩ | ⟨herased, _⟩
    · rw [heq] at hnotified; exact absurd rfl hnotified
    · exact ErasedFirst.length_succ herased
  · intro hnotified
    rcases deleteGoal_cases w aGoal n with ⟨_, heq⟩ | ⟨herased, _⟩
    · rw [heq] at hnotified; exact absurd rfl hnotified
    · exact ErasedFirst.length_succ herased
  · intro hnotified
    rcases deleteWayPoint_cases w aWayPoint n with ⟨_, heq⟩ | ⟨herased, _⟩
    · rw [heq] at hnotified; exact absurd rfl hnotified
    · exact ErasedFirst.length_succ herased

/-- C6 at a concrete store: no entity of `oneOfEach` is named "Nobody" and no
wall of it runs from (7,7) to (8,8), so the four deletes with the notify flag
set return `oneOfEach` itself, with its 4 notifications. -/
theorem delete_absent_is_noop_witness :
    deleteRobot oneOfEach { objectId := 9, name := "Nobody", position := ⟨0, 0⟩ } true
      = oneOfEach ∧
    deleteWall oneOfEach { objectId := 9, point1 := ⟨7, 7⟩, point2 := ⟨8, 8⟩ } true
      = oneOfEach ∧
    deleteGoal oneOfEach { objectId := 9, name := "Nobody", position := ⟨0, 0⟩ } true
      = oneOfEach ∧
    deleteWayPoint oneOfEach { objectId := 9, name := "Nobody", position := ⟨0, 0⟩ } true
      = oneOfEach :=
  have h := delete_absent_is_noop oneOfEach
    { objectId := 9, name := "Nobody", position := ⟨0, 0⟩ }
    { objectId := 9, point1 := ⟨7, 7⟩, point2 := ⟨8, 8⟩ }
    { objectId := 9, name := "Nobody", position := ⟨0, 0⟩ }
    { objectId := 9, name := "Nobody", position := ⟨0, 0⟩ } true
  ⟨h.1 (by decide), h.2.1 (by decide), h.2.2.1 (by decide), h.2.2.2.1 (by decide)⟩

/-! ## The local robot and the layouts -/

/-- With a local robot set, `getLocalRobot` returns it and leaves the store as
it is. -/
theorem getLocalRobot_of_some (w : RobotWorld) (r : Robot) (h : w.localRobot = some r) :
    getLocalRobot w = (r, w) := by
  unfold getLocalRobot
  rw [h]

/-- With no local robot set, `getLocalRobot` makes the robot "You" at
(-100,-100), appends it to the robots and records it as the local robot. -/
theorem getLocalRobot_of_none (w : RobotWorld) (h : w.localRobot = none) :
    getLocalRobot w =
      ({ objectId := w.nextObjectId, name := "You", position := ⟨-100, -100⟩ },
       { w with robots := w.robots ++
                  [{ objectId := w.nextObjectId, name := "You", position := ⟨-100, -100⟩ }],
                localRobot :=
                  some { objectId := w.nextObjectId, name := "You", position := ⟨-100, -100⟩ },
                nextObjectId := w.nextObjectId + 1 }) := by
  unfold getLocalRobot
  rw [h]
  rfl

/-- The switch of `populate`: one of the six layouts or nothing, then one
notification. -/
theorem populate_cases (w : RobotWorld) (worldNumber : Int) (fromRequest : Bool) :
    ∃ w1, populate w worldNumber fromRequest = notifyObservers w1 ∧
      (w1 = populateWorld0 w fromRequest ∨ w1 = populateWorld1 w fromRequest ∨
       w1 = populateWorld2 w fromRequest ∨ w1 = populateWorld3 w fromRequest ∨
       w1 = populateWorld4 w fromRequest ∨ w1 = populateWorld5 w fromRequest ∨ w1 = w) := by
  unfold populate
  split <;> exact ⟨_, rfl, by simp⟩

/-- With a local robot set, the local branch of a layout moves that robot and
keeps it as the local robot; the peer branch leaves the local robot alone. -/
theorem populateWorld_localRobot (w : RobotWorld) (r : Robot) (h : w.localRobot = some r)
    (fromRequest : Bool) :
    (∃ r0, (populateWorld0 w fromRequest).localRobot = some r0 ∧ r0.objectId = r.objectId) ∧
    (∃ r1, (populateWorld1 w fromRequest).localRobot = some r1 ∧ r1.objectId = r.objectId) ∧
    (∃ r2, (populateWorld2 w fromRequest).localRobot = some r2 ∧ r2.objectId = r.objectId) ∧
    (∃ r3, (populateWorld3 w fromRequest).localRobot = some r3 ∧ r3.objectId = r.objectId) ∧
    (∃ r4, (populateWorld4 w fromRequest).localRobot = some r4 ∧ r4.objectId = r.objectId) ∧
    (∃ r5, (populateWorld5 w fromRequest).localRobot = some r5 ∧ r5.objectId = r.objectId) := by
  cases fromRequest <;>
    simp [populateWorld0, populateWorld1, populateWorld2, populateWorld3, populateWorld4,
      populateWorld5, getLocalRobot_of_some w r h, setPosition, RobotWorld.newRobot,
      RobotWorld.newGoal, RobotWorld.newWall, h]

/-- No call but `unpopulate()` changes which robot is the local robot, once
one is set. -/
theorem run_keeps_localRobot (c : Call) (w : RobotWorld) (r : Robot)
    (h : w.localRobot = some r) (hc : c.isUnpopulate = false) :
    ∃ r1, (c.run w).localRobot = some r1 ∧ r1.objectId = r.objectId := by
  cases c with
  | newRobot a p n =>
    cases n <;> exact ⟨r, by simp [Call.run, RobotWorld.newRobot, notifyObservers, h], rfl⟩
  | newWayPoint a p n =>
    cases n <;> exact ⟨r, by simp [Call.run, RobotWorld.newWayPoint, notifyObservers, h], rfl⟩
  | newGoal a p n =>
    cases n <;> exact ⟨r, by simp [Call.run, RobotWorld.newGoal, notifyObservers, h], rfl⟩
  | newWall a p n =>
    cases n <;> exact ⟨r, by simp [Call.run, RobotWorld.newWall, notifyObservers, h], rfl⟩
  | deleteRobot a n =>
    refine ⟨r, ?_, rfl⟩
    rcases deleteRobot_cases w a n with ⟨_, heq⟩ | ⟨_, _, _, _, _, hl⟩
    · simp [Call.run, heq, h]
    · simp [Call.run, hl, h]
  | deleteWayPoint a n =>
    refine ⟨r, ?_, rfl⟩
    rcases deleteWayPoint_cases w a n with ⟨_, heq⟩ | ⟨_, _, _, _, _, hl⟩
    · simp [Call.run, heq, h]
    · simp [Call.run, hl, h]
  | deleteGoal a n =>
    refine ⟨r, ?_, rfl⟩
    rcases deleteGoal_cases w a n with ⟨_, heq⟩ | ⟨_, _, _, _, _, hl⟩
    · simp [Call.run, heq, h]
    · simp [Call.run, hl, h]
  | deleteWall a n =>
    refine ⟨r, ?_, rfl⟩
    rcases deleteWall_cases w a n with ⟨_, heq⟩ | ⟨_, _, _, _, _, hl⟩
    · simp [Call.run, heq, h]
    · simp [Call.run, hl, h]
  | getLocalRobot => exact ⟨r, by simp [Call.run, getLocalRobot_of_some w r h, h], rfl⟩
  | populate k f =>
    obtain ⟨h0, h1, h2, h3, h4, h5⟩ := populateWorld_localRobot w r h f
    obtain ⟨w1, hw1, hcase⟩ := populate_cases w k f
    simp only [Call.run, hw1, notifyObservers]
    rcases hcase with e | e | e | e | e | e | e <;> subst e <;>
      first | assumption | exact ⟨r, h, rfl⟩
  | unpopulate n => simp [Call.isUnpopulate] at hc
  | unpopulateKeeping keep n =>
    exact ⟨r, by simp [Call.run, (unpopulateKeeping_fields w keep n).2.2.2.2, h], rfl⟩

/-- A sequence of calls without `unpopulate()` keeps the local robot, once one
is set. -/
theorem runCalls_keeps_localRobot (calls : List Call) :
    ∀ (w : RobotWorld) (r : Robot), w.localRobot = some r →
      (∀ c ∈ calls, c.isUnpopulate = false) →
      ∃ r1, (runCalls calls w).localRobot = some r1 ∧ r1.objectId = r.objectId := by
  induction calls with
  | nil => intro w r h _; exact ⟨r, h, rfl⟩
  | cons c cs ih =>
    intro w r h hcs
    obtain ⟨r1, h1, hid1⟩ := run_keeps_localRobot c w r h (hcs c (by simp))
    obtain ⟨r2, h2, hid2⟩ := ih (c.run w) r1 h1 (fun d hd => hcs d (by simp [hd]))
    exact ⟨r2, by simpa [runCalls] using h2, hid2.trans hid1⟩

/-- C7: `getLocalRobot` creates lazily and once. When no local robot is set,
the call appends one robot named "You" at (-100,-100) to the robots and records
it as the local robot; after any further calls on the store, none of them
`unpopulate()`, `getLocalRobot` returns the robot with the same identifier and
leaves the store, so also the robots collection, unchanged. -/
theorem getLocalRobot_lazy_idempotent (w : RobotWorld) (calls : List Call)
    (hnone : w.localRobot = none) (hcalls : ∀ c ∈ calls, c.isUnpopulate = false) :
    (getLocalRobot w).1.name = "You" ∧
    (getLocalRobot w).1.position = ⟨-100, -100⟩ ∧
    (getLocalRobot w).2.robots = w.robots ++ [(getLocalRobot w).1] ∧
    (getLocalRobot w).2.localRobot = some (getLocalRobot w).1 ∧
    (getLocalRobot (runCalls calls (getLocalRobot w).2)).1.objectId
      = (getLocalRobot w).1.objectId ∧
    (getLocalRobot (runCalls calls (getLocalRobot w).2)).2.robots
      = (runCalls calls (getLocalRobot w).2).robots ∧
    (getLocalRobot (runCalls calls (getLocalRobot w).2)).2
      = runCalls calls (getLocalRobot w).2 := by
  have hfirst : (getLocalRobot w).2.localRobot = some (getLocalRobot w).1 := by
    rw [getLocalRobot_of_none w hnone]
  obtain ⟨r1, h1, hid⟩ := runCalls_keeps_localRobot calls _ _ hfirst hcalls
  have hagain := getLocalRobot_of_some _ r1 h1
  refine ⟨?_, ?_, ?_, hfirst, ?_, ?_, ?_⟩
  · rw [getLocalRobot_of_none w hnone]
  · rw [getLocalRobot_of_none w hnone]
  · rw [getLocalRobot_of_none w hnone]
  · rw [hagain]; exact hid
  · rw [hagain]
  · rw [hagain]

/-- C7 at a concrete input: on a new store, after the first `getLocalRobot`,
the calls `populate(0, false)`, `newRobot("Peer", (1,1))`, `unpopulate({0})` and
`getLocalRobot()` follow; the next `getLocalRobot` returns identifier 0 again
and changes nothing. -/
theorem getLocalRobot_lazy_idempotent_witness :
    (fresh 0 0).localRobot = none ∧
    (getLocalRobot (fresh 0 0)).1 = { objectId := 0, name := "You", position := ⟨-100, -100⟩ } ∧
    (getLocalRobot (runCalls
        [.populate 0 false, .newRobot "Peer" ⟨1, 1⟩ true, .unpopulateKeeping [0] true,
          .getLocalRobot]
        (getLocalRobot (fresh 0 0)).2)).1.objectId = 0 ∧
    (getLocalRobot (runCalls
        [.populate 0 false, .newRobot "Peer" ⟨1, 1⟩ true, .unpopulateKeeping [0] true,
          .getLocalRobot]
        (getLocalRobot (fresh 0 0)).2)).2
      = runCalls
        [.populate 0 false, .newRobot "Peer" ⟨1, 1⟩ true, .unpopulateKeeping [0] true,
          .getLocalRobot]
        (getLocalRobot (fresh 0 0)).2 :=
  have h := getLocalRobot_lazy_idempotent (fresh 0 0)
    [.populate 0 false, .newRobot "Peer" ⟨1, 1⟩ true, .unpopulateKeeping [0] true,
      .getLocalRobot] rfl (by decide)
  ⟨rfl, rfl, h.2.2.2.2.1, h.2.2.2.2.2.2⟩

/-! ## The layouts -/

/-- C8: after `populate(0, false)` on an empty store (four empty collections;
the counters and the local robot member are arbitrary), `getLocalRobot()`
returns a robot at (50,60), and the goals are exactly one goal, named
"YourGoal", at (450,440). -/
theorem populate_zero_local (w : RobotWorld)
    (hempty : w.robots = [] ∧ w.wayPoints = [] ∧ w.goals = [] ∧ w.walls = []) :
    (getLocalRobot (populate w 0 false)).1.position = ⟨50, 60⟩ ∧
    (populate w 0 false).goals.length = 1 ∧
    (populate w 0 false).goals.map (fun g => (g.name, g.position))
      = [("YourGoal", ⟨450, 440⟩)] := by
  obtain ⟨rs, ps, gs, xs, l, n, k⟩ := w
  obtain ⟨h1, h2, h3, h4⟩ := hempty
  simp only at h1 h2 h3 h4
  subst h1 h2 h3 h4
  cases l <;>
    simp [populate, populateWorld0, getLocalRobot, setPosition, RobotWorld.newRobot,
      RobotWorld.newGoal, notifyObservers]

/-- C8 on the store a constructor call leaves: the local robot, created by
`populate(0, false)` with identifier 0, is the one robot of the store and is
at (50,60); the one goal is "YourGoal" at (450,440). -/
theorem populate_zero_local_witness :
    ((fresh 0 0).robots = [] ∧ (fresh 0 0).wayPoints = [] ∧ (fresh 0 0).goals = [] ∧
      (fresh 0 0).walls = []) ∧
    (populate (fresh 0 0) 0 false).robots
      = [{ objectId := 0, name := "You", position := ⟨50, 60⟩ }] ∧
    (getLocalRobot (populate (fresh 0 0) 0 false)).1
      = { objectId := 0, name := "You", position := ⟨50, 60⟩ } ∧
    (populate (fresh 0 0) 0 false).goals
      = [{ objectId := 1, name := "YourGoal", position := ⟨450, 440⟩ }] ∧
    (getLocalRobot (populate (fresh 0 0) 0 false)).1.position = ⟨50, 60⟩ ∧
    (populate (fresh 0 0) 0 false).goals.length = 1 ∧
    (populate (fresh 0 0) 0 false).goals.map (fun g => (g.name, g.position))
      = [("YourGoal", ⟨450, 440⟩)] :=
  ⟨⟨rfl, rfl, rfl, rfl⟩, rfl, rfl, rfl,
    populate_zero_local (fresh 0 0) ⟨rfl, rfl, rfl, rfl⟩⟩

/-- The layouts 0 and 1 create no wall. -/
theorem populateWorld01_walls (w : RobotWorld) (fromRequest : Bool) :
    (populateWorld0 w fromRequest).walls = w.walls ∧
    (populateWorld1 w fromRequest).walls = w.walls := by
  cases fromRequest <;> cases hl : w.localRobot <;>
    simp [populateWorld0, populateWorld1, getLocalRobot, hl, setPosition, RobotWorld.newRobot,
      RobotWorld.newGoal]

/-- C9: for every store and both values of `fromRequest`, `populate(4, f)`
yields the robots and goals of `populate(0, f)` and `populate(5, f)` those of
`populate(1, f)`; layouts 0 and 1 leave the walls as they are, and layouts 4
and 5 append exactly one wall to them, for layout 4 the wall from (480,300) to
(150,300), for layout 5 the wall from (20,100) to (350,100). -/
theorem populate_four_five (w : RobotWorld) (fromRequest : Bool) :
    (populate w 4 fromRequest).robots = (populate w 0 fromRequest).robots ∧
    (populate w 4 fromRequest).goals = (populate w 0 fromRequest).goals ∧
    (populate w 0 fromRequest).walls = w.walls ∧
    (∃ wall : Wall, wall.point1 = ⟨480, 300⟩ ∧ wall.point2 = ⟨150, 300⟩ ∧
      (populate w 4 fromRequest).walls = w.walls ++ [wall]) ∧
    (populate w 5 fromRequest).robots = (populate w 1 fromRequest).robots ∧
    (populate w 5 fromRequest).goals = (populate w 1 fromRequest).goals ∧
    (populate w 1 fromRequest).walls = w.walls ∧
    (∃ wall : Wall, wall.point1 = ⟨20, 100⟩ ∧ wall.point2 = ⟨350, 100⟩ ∧
      (populate w 5 fromRequest).walls = w.walls ++ [wall]) := by
  obtain ⟨h0, h1⟩ := populateWorld01_walls w fromRequest
  refine ⟨?_, ?_, ?_, ?_, ?_, ?_, ?_, ?_⟩
  · simp [populate, populateWorld4, RobotWorld.newWall, notifyObservers]
  · simp [populate, populateWorld4, RobotWorld.newWall, notifyObservers]
  · simp [populate, notifyObservers, h0]
  · exact ⟨{ objectId := (populateWorld0 w fromRequest).nextObjectId,
             point1 := ⟨480, 300⟩, point2 := ⟨150, 300⟩ }, rfl, rfl,
      by simp [populate, populateWorld4, RobotWorld.newWall, notifyObservers, h0]⟩
  · simp [populate, populateWorld5, RobotWorld.newWall, notifyObservers]
  · simp [populate, populateWorld5, RobotWorld.newWall, notifyObservers]
  · simp [populate, notifyObservers, h1]
  · exact ⟨{ objectId := (populateWorld1 w fromRequest).nextObjectId,
             point1 := ⟨20, 100⟩, point2 := ⟨350, 100⟩ }, rfl, rfl,
      by simp [populate, populateWorld5, RobotWorld.newWall, notifyObservers, h1]⟩

/-- C10: after `populate(2, true)` on an empty store (four empty collections;
the counters and the local robot member are arbitrary), the store holds the
robot "Peer" at (40,40) and the goal "PeerGoal" at (480,480), and no other
robot, goal, wall or way point. -/
theorem populate_two_peer (w : RobotWorld)
    (hempty : w.robots = [] ∧ w.wayPoints = [] ∧ w.goals = [] ∧ w.walls = []) :
    (populate w 2 true).robots
      = [{ objectId := w.nextObjectId, name := "Peer", position := ⟨40, 40⟩ }] ∧
    (populate w 2 true).goals
      = [{ objectId := w.nextObjectId + 1, name := "PeerGoal", position := ⟨480, 480⟩ }] ∧
    (populate w 2 true).walls = [] ∧
    (populate w 2 true).wayPoints = [] := by
  obtain ⟨h1, h2, h3, h4⟩ := hempty
  refine ⟨?_, ?_, ?_, ?_⟩ <;>
    simp [populate, populateWorld2, RobotWorld.newRobot, RobotWorld.newGoal,
      notifyObservers, h1, h2, h3, h4]

/-- C10 on the store a constructor call leaves: one robot "Peer" at (40,40)
with identifier 0, one goal "PeerGoal" at (480,480) with identifier 1, no wall
and no way point. -/
theorem populate_two_peer_witness :
    ((fresh 0 0).robots = [] ∧ (fresh 0 0).wayPoints = [] ∧ (fresh 0 0).goals = [] ∧
      (fresh 0 0).walls = []) ∧
    (populate (fresh 0 0) 2 true).robots
      = [{ objectId := 0, name := "Peer", position := ⟨40, 40⟩ }] ∧
    (populate (fresh 0 0) 2 true).goals
      = [{ objectId := 1, name := "PeerGoal", position := ⟨480, 480⟩ }] ∧
    (populate (fresh 0 0) 2 true).walls = [] ∧
    (populate (fresh 0 0) 2 true).wayPoints = [] :=
  ⟨⟨rfl, rfl, rfl, rfl⟩, populate_two_peer (fresh 0 0) ⟨rfl, rfl, rfl, rfl⟩⟩

/-! ## populate: unknown world numbers and notifications -/

/-- No layout notifies: the creation steps of the six layouts are all made with
the notify flag `false`. -/
theorem populateWorld_notifications (w : RobotWorld) (fromRequest : Bool) :
    (populateWorld0 w fromRequest).notifications = w.notifications ∧
    (populateWorld1 w fromRequest).notifications = w.notifications ∧
    (populateWorld2 w fromRequest).notifications = w.notifications ∧
    (populateWorld3 w fromRequest).notifications = w.notifications ∧
    (populateWorld4 w fromRequest).notifications = w.notifications ∧
    (populateWorld5 w fromRequest).notifications = w.notifications := by
  cases fromRequest <;> cases hl : w.localRobot <;>
    simp [populateWorld0, populateWorld1, populateWorld2, populateWorld3, populateWorld4,
      populateWorld5, getLocalRobot, hl, setPosition, RobotWorld.newRobot, RobotWorld.newGoal,
      RobotWorld.newWall]

/-- C11: for every world number outside 0..5, negative numbers included, and
both values of `fromRequest`, `populate` leaves the four collections and the
local robot unchanged and still sends exactly one notification: the store it
returns is the old one after one `notifyObservers()`. -/
theorem populate_unknown_world (w : RobotWorld) (worldNumber : Int) (fromRequest : Bool)
    (hout : worldNumber < 0 ∨ 5 < worldNumber) :
    populate w worldNumber fromRequest = notifyObservers w ∧
    (populate w worldNumber fromRequest).robots = w.robots ∧
    (populate w worldNumber fromRequest).wayPoints = w.wayPoints ∧
    (populate w worldNumber fromRequest).goals = w.goals ∧
    (populate w worldNumber fromRequest).walls = w.walls ∧
    (populate w worldNumber fromRequest).localRobot = w.localRobot ∧
    (populate w worldNumber fromRequest).notifications = w.notifications + 1 := by
  have h : populate w worldNumber fromRequest = notifyObservers w := by
    unfold populate
    split <;> first | (exfalso; omega) | rfl
  rw [h]
  simp [notifyObservers]

/-- C11 at concrete inputs: world numbers -1 and 6 on the store `oneOfEach`,
which has 4 notifications counted. -/
theorem populate_unknown_world_witness :
    ((-1 : Int) < 0 ∨ 5 < (-1 : Int)) ∧
    populate oneOfEach (-1) false = notifyObservers oneOfEach ∧
    (populate oneOfEach (-1) false).notifications = 5 ∧
    populate oneOfEach 6 true = notifyObservers oneOfEach :=
  ⟨by decide, (populate_unknown_world oneOfEach (-1) false (by decide)).1,
    (populate_unknown_world oneOfEach (-1) false (by decide)).2.2.2.2.2.2,
    (populate_unknown_world oneOfEach 6 true (by decide)).1⟩

/-- The notify flag of a factory call decides the notification and nothing
else. -/
theorem factory_notifications (w : RobotWorld) (aName : String)
    (aPosition aPoint1 aPoint2 : wxPoint) (n : Bool) :
    ((newRobot w aName aPosition n).2.notifications = w.notifications + (if n then 1 else 0) ∧
      SameContents (newRobot w aName aPosition true).2 (newRobot w aName aPosition false).2) ∧
    ((newWall w aPoint1 aPoint2 n).2.notifications = w.notifications + (if n then 1 else 0) ∧
      SameContents (newWall w aPoint1 aPoint2 true).2 (newWall w aPoint1 aPoint2 false).2) ∧
    ((newGoal w aName aPosition n).2.notifications = w.notifications + (if n then 1 else 0) ∧
      SameContents (newGoal w aName aPosition true).2 (newGoal w aName aPosition false).2) ∧
    ((newWayPoint w aName aPosition n).2.notifications
        = w.notifications + (if n then 1 else 0) ∧
      SameContents (newWayPoint w aName aPosition true).2
        (newWayPoint w aName aPosition false).2) := by
  cases n <;>
    simp [RobotWorld.newRobot, RobotWorld.newWall, RobotWorld.newGoal, RobotWorld.newWayPoint,
      notifyObservers, SameContents]

/-- The notify flag of a delete call decides the notification and nothing
else. -/
theorem delete_sameContents (w : RobotWorld) (aRobot : Robot) (aWayPoint : WayPoint)
    (aGoal : Goal) (aWall : Wall) :
    SameContents (deleteRobot w aRobot true) (deleteRobot w aRobot false) ∧
    SameContents (deleteWayPoint w aWayPoint true) (deleteWayPoint w aWayPoint false) ∧
    SameContents (deleteGoal w aGoal true) (deleteGoal w aGoal false) ∧
    SameContents (deleteWall w aWall true) (deleteWall w aWall false) := by
  refine ⟨?_, ?_, ?_, ?_⟩
  · unfold deleteRobot
    by_cases h : List.findIdx (fun r => aRobot.name == r.name) w.robots = w.robots.length <;>
      simp [h, notifyObservers, SameContents]
  · unfold deleteWayPoint
    by_cases h : List.findIdx (fun p => aWayPoint.name == p.name) w.wayPoints
        = w.wayPoints.length <;>
      simp [h, notifyObservers, SameContents]
  · unfold deleteGoal
    by_cases h : List.findIdx (fun g => aGoal.name == g.name) w.goals = w.goals.length <;>
      simp [h, notifyObservers, SameContents]
  · unfold deleteWall
    by_cases h : List.findIdx
        (fun x => aWall.point1 == x.point1 && aWall.point2 == x.point2) w.walls
          = w.walls.length <;>
      simp [h, notifyObservers, SameContents]

/-- C12: notification is all or nothing per operation. Each of `newRobot`,
`newWall`, `newGoal`, `newWayPoint`, a delete that removes an entity, and both
overloads of `unpopulate` sends exactly one notification when its notify flag
is true and none when it is false, and the collections and the local robot it
leaves do not depend on the flag. `populate` sends exactly one notification
for every world number and value of `fromRequest`, and none of the six layouts
it dispatches to sends one. -/
theorem notification_all_or_nothing (w : RobotWorld) (aName : String)
    (aPosition aPoint1 aPoint2 : wxPoint) (aRobot : Robot) (aWayPoint : WayPoint)
    (aGoal : Goal) (aWall : Wall) (keep : List ObjectId) (worldNumber : Int)
    (fromRequest n : Bool) :
    ((newRobot w aName aPosition n).2.notifications = w.notifications + (if n then 1 else 0) ∧
      SameContents (newRobot w aName aPosition true).2 (newRobot w aName aPosition false).2) ∧
    ((newWall w aPoint1 aPoint2 n).2.notifications = w.notifications + (if n then 1 else 0) ∧
      SameContents (newWall w aPoint1 aPoint2 true).2 (newWall w aPoint1 aPoint2 false).2) ∧
    ((newGoal w aName aPosition n).2.notifications = w.notifications + (if n then 1 else 0) ∧
      SameContents (newGoal w aName aPosition true).2 (newGoal w aName aPosition false).2) ∧
    ((newWayPoint w aName aPosition n).2.notifications
        = w.notifications + (if n then 1 else 0) ∧
      SameContents (newWayPoint w aName aPosition true).2
        (newWayPoint w aName aPosition false).2) ∧
    (((deleteRobot w aRobot n).robots ≠ w.robots →
        (deleteRobot w aRobot n).notifications = w.notifications + (if n then 1 else 0)) ∧
      SameContents (deleteRobot w aRobot true) (deleteRobot w aRobot false)) ∧
    (((deleteWall w aWall n).walls ≠ w.walls →
        (deleteWall w aWall n).notifications = w.notifications + (if n then 1 else 0)) ∧
      SameContents (deleteWall w aWall true) (deleteWall w aWall false)) ∧
    (((deleteGoal w aGoal n).goals ≠ w.goals →
        (deleteGoal w aGoal n).notifications = w.notifications + (if n then 1 else 0)) ∧
      SameContents (deleteGoal w aGoal true) (deleteGoal w aGoal false)) ∧
    (((deleteWayPoint w aWayPoint n).wayPoints ≠ w.wayPoints →
        (deleteWayPoint w aWayPoint n).notifications
          = w.notifications + (if n then 1 else 0)) ∧
      SameContents (deleteWayPoint w aWayPoint true) (deleteWayPoint w aWayPoint false)) ∧
    ((unpopulate w n).notifications = w.notifications + (if n then 1 else 0) ∧
      SameContents (unpopulate w true) (unpopulate w false)) ∧
    ((unpopulateKeeping w keep n).notifications = w.notifications + (if n then 1 else 0) ∧
      SameContents (unpopulateKeeping w keep true) (unpopulateKeeping w keep false)) ∧
    (populate w worldNumber fromRequest).notifications = w.notifications + 1 ∧
    ((populateWorld0 w fromRequest).notifications = w.notifications ∧
      (populateWorld1 w fromRequest).notifications = w.notifications ∧
      (populateWorld2 w fromRequest).notifications = w.notifications ∧
      (populateWorld3 w fromRequest).notifications = w.notifications ∧
      (populateWorld4 w fromRequest).notifications = w.notifications ∧
      (populateWorld5 w fromRequest).notifications = w.notifications) := by
  obtain ⟨f1, f2, f3, f4⟩ := factory_notifications w aName aPosition aPoint1 aPoint2 n
  obtain ⟨d1, d2, d3, d4⟩ := delete_sameContents w aRobot aWayPoint aGoal aWall
  have hp := populateWorld_notifications w fromRequest
  refine ⟨f1, f2, f3, f4, ⟨?_, d1⟩, ⟨?_, d4⟩, ⟨?_, d3⟩, ⟨?_, d2⟩, ?_, ?_, ?_, hp⟩
  · intro hchanged
    rcases deleteRobot_cases w aRobot n with ⟨_, heq⟩ | ⟨_, hn, _⟩
    · rw [heq] at hchanged; exact absurd rfl hchanged
    · exact hn
  · intro hchanged
    rcases deleteWall_cases w aWall n with ⟨_, heq⟩ | ⟨_, hn, _⟩
    · rw [heq] at hchanged; exact absurd rfl hchanged
    · exact hn
  · intro hchanged
    rcases deleteGoal_cases w aGoal n with ⟨_, heq⟩ | ⟨_, hn, _⟩
    · rw [heq] at hchanged; exact absurd rfl hchanged
    · exact hn
  · intro hchanged
    rcases deleteWayPoint_cases w aWayPoint n with ⟨_, heq⟩ | ⟨_, hn, _⟩
    · rw [heq] at hchanged; exact absurd rfl hchanged
    · exact hn
  · cases n <;> simp [unpopulate, notifyObservers, SameContents]
  · obtain ⟨a1, a2, a3, a4, a5⟩ := unpopulateKeeping_fields w keep true
    obtain ⟨b1, b2, b3, b4, b5⟩ := unpopulateKeeping_fields w keep false
    refine ⟨?_, by rw [a1, b1], by rw [a2, b2], by rw [a3, b3], by rw [a4, b4], by rw [a5, b5]⟩
    obtain ⟨rs, ps, gs, xs, l, m, k⟩ := w
    cases rs <;> cases ps <;> cases gs <;> cases xs <;> cases n <;>
      simp [unpopulateKeeping, notifyObservers]
  · obtain ⟨w1, hw1, hcase⟩ := populate_cases w worldNumber fromRequest
    obtain ⟨h0, h1, h2, h3, h4, h5⟩ := hp
    rw [hw1]
    simp only [notifyObservers]
    rcases hcase with e | e | e | e | e | e | e <;> subst e <;> simp [*]

/-- C12 at a concrete store: in `twice` a robot named "Peer" exists, so
`deleteRobot` with the notify flag set removes one robot and counts one
notification, and without the flag it counts none. -/
theorem notification_all_or_nothing_witness :
    (deleteRobot twice { objectId := 4, name := "Peer", position := ⟨50, 60⟩ } true).robots
      ≠ twice.robots ∧
    (deleteRobot twice { objectId := 4, name := "Peer", position := ⟨50, 60⟩ }
      true).notifications = twice.notifications + 1 ∧
    (deleteRobot twice { objectId := 4, name := "Peer", position := ⟨50, 60⟩ }
      false).notifications = twice.notifications + 0 :=
  ⟨by decide,
    (notification_all_or_nothing twice "" ⟨0, 0⟩ ⟨0, 0⟩ ⟨0, 0⟩
      { objectId := 4, name := "Peer", position := ⟨50, 60⟩ }
      { objectId := 0, name := "", position := ⟨0, 0⟩ }
      { objectId := 0, name := "", position := ⟨0, 0⟩ }
      { objectId := 0, point1 := ⟨0, 0⟩, point2 := ⟨0, 0⟩ } [] 0 false true).2.2.2.2.1.1
      (by decide),
    (notification_all_or_nothing twice "" ⟨0, 0⟩ ⟨0, 0⟩ ⟨0, 0⟩
      { objectId := 4, name := "Peer", position := ⟨50, 60⟩ }
      { objectId := 0, name := "", position := ⟨0, 0⟩ }
      { objectId := 0, name := "", position := ⟨0, 0⟩ }
      { objectId := 0, point1 := ⟨0, 0⟩, point2 := ⟨0, 0⟩ } [] 0 false false).2.2.2.2.1.1
      (by decide)⟩

/-! ## Lookups -/

/-- C13: the lookups are total and return the first match. For every store,
`getRobot`, `getGoal` and `getWayPoint` by name and `getRobot`, `getGoal`,
`getWayPoint` and `getWall` by identifier return the earliest entity in
insertion order whose name (identifier) equals the key, and return the absent
result exactly when no entity of that collection has the key. The lookups are
functions of the store that return no store, as the `const` member functions
they embed. -/
theorem lookups_first_match (w : RobotWorld) (aName : String) (anObjectId : ObjectId) :
    (FirstMatch (fun r => r.name = aName) w.robots (getRobot w aName) ∧
      (getRobot w aName = none ↔ ∀ r ∈ w.robots, ¬ r.name = aName)) ∧
    (FirstMatch (fun g => g.name = aName) w.goals (getGoal w aName) ∧
      (getGoal w aName = none ↔ ∀ g ∈ w.goals, ¬ g.name = aName)) ∧
    (FirstMatch (fun p => p.name = aName) w.wayPoints (getWayPoint w aName) ∧
      (getWayPoint w aName = none ↔ ∀ p ∈ w.wayPoints, ¬ p.name = aName)) ∧
    (FirstMatch (fun r => r.objectId = anObjectId) w.robots (getRobotById w anObjectId) ∧
      (getRobotById w anObjectId = none ↔ ∀ r ∈ w.robots, ¬ r.objectId = anObjectId)) ∧
    (FirstMatch (fun g => g.objectId = anObjectId) w.goals (getGoalById w anObjectId) ∧
      (getGoalById w anObjectId = none ↔ ∀ g ∈ w.goals, ¬ g.objectId = anObjectId)) ∧
    (FirstMatch (fun p => p.objectId = anObjectId) w.wayPoints
        (getWayPointById w anObjectId) ∧
      (getWayPointById w anObjectId = none ↔
        ∀ p ∈ w.wayPoints, ¬ p.objectId = anObjectId)) ∧
    (FirstMatch (fun x => x.objectId = anObjectId) w.walls (getWall w anObjectId) ∧
      (getWall w anObjectId = none ↔ ∀ x ∈ w.walls, ¬ x.objectId = anObjectId)) := by
  have hr := find?_firstMatch (fun r : Robot => r.name == aName) (fun r => r.name = aName)
    (fun a => beq_iff_eq) w.robots
  have hg := find?_firstMatch (fun g : Goal => g.name == aName) (fun g => g.name = aName)
    (fun a => beq_iff_eq) w.goals
  have hp := find?_firstMatch (fun p : WayPoint => p.name == aName) (fun p => p.name = aName)
    (fun a => beq_iff_eq) w.wayPoints
  have hri := find?_firstMatch (fun r : Robot => r.objectId == anObjectId)
    (fun r => r.objectId = anObjectId) (fun a => beq_iff_eq) w.robots
  have hgi := find?_firstMatch (fun g : Goal => g.objectId == anObjectId)
    (fun g => g.objectId = anObjectId) (fun a => beq_iff_eq) w.goals
  have hpi := find?_firstMatch (fun p : WayPoint => p.objectId == anObjectId)
    (fun p => p.objectId = anObjectId) (fun a => beq_iff_eq) w.wayPoints
  have hxi := find?_firstMatch (fun x : Wall => x.objectId == anObjectId)
    (fun x => x.objectId = anObjectId) (fun a => beq_iff_eq) w.walls
  exact ⟨⟨hr, FirstMatch.none_iff hr⟩, ⟨hg, FirstMatch.none_iff hg⟩,
    ⟨hp, FirstMatch.none_iff hp⟩, ⟨hri, FirstMatch.none_iff hri⟩,
    ⟨hgi, FirstMatch.none_iff hgi⟩, ⟨hpi, FirstMatch.none_iff hpi⟩,
    ⟨hxi, FirstMatch.none_iff hxi⟩⟩

/-! ## asCode -/

/-- The text `asCode` returns is two newlines, the texts of the statements for
the factory calls `asCodeCalls` lists, and two newlines. -/
theorem asCode_eq_text (w : RobotWorld) :
    asCode w = "\n\n" ++ String.join ((asCodeCalls w).map FactoryCall.text) ++ "\n\n" := by
  simp [asCode, asCodeCalls, FactoryCall.text, String.append_assoc, foldl_stream, join_append,
    Function.comp_def]

/-- Making a sequence of factory calls appends to each collection the entities
of its kind, with the arguments of the calls and in the order of the calls. -/
theorem replayAll_contents (calls : List FactoryCall) :
    ∀ s : RobotWorld,
      (replayAll calls s).robots.map (fun r => (r.name, r.position))
        = s.robots.map (fun r => (r.name, r.position))
          ++ calls.filterMap FactoryCall.robotArgs ∧
      (replayAll calls s).walls.map (fun x => (x.point1, x.point2))
        = s.walls.map (fun x => (x.point1, x.point2))
          ++ calls.filterMap FactoryCall.wallArgs ∧
      (replayAll calls s).wayPoints.map (fun p => (p.name, p.position))
        = s.wayPoints.map (fun p => (p.name, p.position))
          ++ calls.filterMap FactoryCall.wayPointArgs ∧
      (replayAll calls s).goals.map (fun g => (g.name, g.position))
        = s.goals.map (fun g => (g.name, g.position))
          ++ calls.filterMap FactoryCall.goalArgs := by
  induction calls with
  | nil => intro s; simp [replayAll]
  | cons c cs ih =>
    intro s
    obtain ⟨h1, h2, h3, h4⟩ := ih (c.replay s)
    have hstep : replayAll (c :: cs) s = replayAll cs (c.replay s) := rfl
    rw [hstep, h1, h2, h3, h4]
    cases c <;>
      simp [FactoryCall.replay, RobotWorld.newRobot, RobotWorld.newWall,
        RobotWorld.newWayPoint, RobotWorld.newGoal, FactoryCall.robotArgs,
        FactoryCall.wallArgs, FactoryCall.wayPointArgs, FactoryCall.goalArgs]

/-- The arguments of the calls `asCodeCalls` lists, kind by kind, are the
names, positions and end points of the entities of the store, in order. -/
theorem asCodeCalls_args (w : RobotWorld) :
    (asCodeCalls w).filterMap FactoryCall.robotArgs
      = w.robots.map (fun r => (r.name, r.position)) ∧
    (asCodeCalls w).filterMap FactoryCall.wallArgs
      = w.walls.map (fun x => (x.point1, x.point2)) ∧
    (asCodeCalls w).filterMap FactoryCall.wayPointArgs
      = w.wayPoints.map (fun p => (p.name, p.position)) ∧
    (asCodeCalls w).filterMap FactoryCall.goalArgs
      = w.goals.map (fun g => (g.name, g.position)) := by
  refine ⟨?_, ?_, ?_, ?_⟩ <;>
    simp [asCodeCalls, List.filterMap_append, List.filterMap_map, Function.comp_def,
      FactoryCall.robotArgs, FactoryCall.wallArgs, FactoryCall.wayPointArgs,
      FactoryCall.goalArgs, filterMap_fun_none, filterMap_fun_some]

/-- Making the factory calls `asCodeCalls` lists for a store, in order, on a
new empty store (any counters) yields robots, walls, way points and goals of
the same number, with the same names, positions and end points, in the same
order within each collection; and the text of `asCode` is the text of these
calls between two pairs of line breaks. -/
theorem asCode_round_trip (w : RobotWorld) (n : Nat) (k : ObjectId) :
    asCode w = "\n\n" ++ String.join ((asCodeCalls w).map FactoryCall.text) ++ "\n\n" ∧
    ((replayAll (asCodeCalls w) (fresh n k)).robots.length = w.robots.length ∧
     (replayAll (asCodeCalls w) (fresh n k)).walls.length = w.walls.length ∧
     (replayAll (asCodeCalls w) (fresh n k)).wayPoints.length = w.wayPoints.length ∧
     (replayAll (asCodeCalls w) (fresh n k)).goals.length = w.goals.length) ∧
    (replayAll (asCodeCalls w) (fresh n k)).robots.map (fun r => (r.name, r.position))
      = w.robots.map (fun r => (r.name, r.position)) ∧
    (replayAll (asCodeCalls w) (fresh n k)).walls.map (fun x => (x.point1, x.point2))
      = w.walls.map (fun x => (x.point1, x.point2)) ∧
    (replayAll (asCodeCalls w) (fresh n k)).wayPoints.map (fun p => (p.name, p.position))
      = w.wayPoints.map (fun p => (p.name, p.position)) ∧
    (replayAll (asCodeCalls w) (fresh n k)).goals.map (fun g => (g.name, g.position))
      = w.goals.map (fun g => (g.name, g.position)) := by
  obtain ⟨h1, h2, h3, h4⟩ := replayAll_contents (asCodeCalls w) (fresh n k)
  obtain ⟨a1, a2, a3, a4⟩ := asCodeCalls_args w
  rw [a1] at h1
  rw [a2] at h2
  rw [a3] at h3
  rw [a4] at h4
  simp only [fresh, List.map_nil, List.nil_append] at h1 h2 h3 h4
  refine ⟨asCode_eq_text w, ⟨?_, ?_, ?_, ?_⟩, h1, h2, h3, h4⟩
  · simpa using congrArg List.length h1
  · simpa using congrArg List.length h2
  · simpa using congrArg List.length h3
  · simpa using congrArg List.length h4

/-- C15: for every store, `asCode` emits exactly one statement per entity, all
robots first, then all walls, then all way points, then all goals, each group
in the order of its collection, so the number of statements is the sum of the
four sizes; and the text depends on the four collections only. -/
theorem asCode_statements (w : RobotWorld) :
    asCode w = "\n\n" ++ String.join
      (w.robots.map (fun r => (FactoryCall.newRobot r.name r.position).text)
        ++ w.walls.map (fun x => (FactoryCall.newWall x.point1 x.point2).text)
        ++ w.wayPoints.map (fun p => (FactoryCall.newWayPoint p.name p.position).text)
        ++ w.goals.map (fun g => (FactoryCall.newGoal g.name g.position).text)) ++ "\n\n" ∧
    (w.robots.map (fun r => (FactoryCall.newRobot r.name r.position).text)
        ++ w.walls.map (fun x => (FactoryCall.newWall x.point1 x.point2).text)
        ++ w.wayPoints.map (fun p => (FactoryCall.newWayPoint p.name p.position).text)
        ++ w.goals.map (fun g => (FactoryCall.newGoal g.name g.position).text)).length
      = w.robots.length + w.walls.length + w.wayPoints.length + w.goals.length ∧
    (asCodeCalls w).length
      = w.robots.length + w.walls.length + w.wayPoints.length + w.goals.length ∧
    (∀ v : RobotWorld, v.robots = w.robots → v.walls = w.walls →
      v.wayPoints = w.wayPoints → v.goals = w.goals → asCode v = asCode w) := by
  refine ⟨?_, ?_, ?_, ?_⟩
  · rw [asCode_eq_text]
    simp [asCodeCalls, Function.comp_def]
  · simp only [List.length_append, List.length_map]
  · simp only [asCodeCalls, List.length_append, List.length_map]
  · intro v hr hx hp hg
    simp [asCode, hr, hx, hp, hg]

/-- C15 at concrete stores: counting a notification changes none of the four
collections of `oneOfEach`, so the text of `asCode` stays the same; that store
has four entities and four statements; and the text for the store that holds
just the lazily created local robot is one `newRobot` statement between two
pairs of newlines. -/
theorem asCode_statements_witness :
    asCode (notifyObservers oneOfEach) = asCode oneOfEach ∧
    (asCodeCalls oneOfEach).length = 4 ∧
    asCode (getLocalRobot (fresh 0 0)).2 =
      "\n\nRobotWorld::getRobotWorld().newRobot( \"You\", wxPoint(-100,-100),false);\n\n\n" :=
  ⟨(asCode_statements oneOfEach).2.2.2 (notifyObservers oneOfEach) rfl rfl rfl rfl,
    (asCode_statements oneOfEach).2.2.1, by decide⟩

/-! ## Reading the text of asCode back -/

/-- A digit as `Nat.digitChar` prints it has its value. -/
theorem digitValue_digitChar (d : Nat) (h : d < 10) :
    digitValue (Nat.digitChar d) = some d := by
  interval_cases d <;> rfl

/-- The digits are put in front of what was printed before. -/
theorem toDigitsCore_append (fuel : Nat) :
    ∀ (n : Nat) (ds : List Char),
      Nat.toDigitsCore 10 fuel n ds = Nat.toDigitsCore 10 fuel n [] ++ ds := by
  induction fuel with
  | zero => intro n ds; simp [Nat.toDigitsCore]
  | succ f ih =>
    intro n ds
    simp only [Nat.toDigitsCore]
    split
    · simp
    · rw [ih (n / 10) (Nat.digitChar (n % 10) :: ds), ih (n / 10) [Nat.digitChar (n % 10)]]
      simp

/-- Reading through a run of digits accumulates their value. -/
theorem readDigits_append (ds : List Char) :
    ∀ (acc : Nat) (s : List Char), (∀ c ∈ ds, (digitValue c).isSome = true) →
      readDigits (ds ++ s) acc
        = readDigits s (ds.foldl (fun a c => a * 10 + (digitValue c).getD 0) acc) := by
  induction ds with
  | nil => intro acc s _; rfl
  | cons c t ih =>
    intro acc s hall
    have hc := hall c (by simp)
    obtain ⟨d, hd⟩ := Option.isSome_iff_exists.mp hc
    simp only [List.cons_append, readDigits, hd, List.foldl_cons, Option.getD_some]
    exact ih _ s (fun x hx => hall x (by simp [hx]))

/-- What `Nat.toDigits` prints for `n` is a run of digits, not empty, whose
value is `n`. -/
theorem toDigitsCore_spec (fuel : Nat) :
    ∀ n : Nat, n < fuel →
      (∀ c ∈ Nat.toDigitsCore 10 fuel n [], (digitValue c).isSome = true) ∧
      (Nat.toDigitsCore 10 fuel n []).foldl (fun a c => a * 10 + (digitValue c).getD 0) 0 = n ∧
      Nat.toDigitsCore 10 fuel n [] ≠ [] := by
  induction fuel with
  | zero => intro n h; omega
  | succ f ih =>
    intro n hn
    have hdig : digitValue (Nat.digitChar (n % 10)) = some (n % 10) :=
      digitValue_digitChar _ (Nat.mod_lt _ (by decide))
    simp only [Nat.toDigitsCore]
    split
    · rename_i h0
      refine ⟨?_, ?_, by simp⟩
      · intro c hc
        simp only [List.mem_singleton] at hc
        subst hc
        simp [hdig]
      · simp [hdig]
        omega
    · rename_i h0
      have hlt : n / 10 < f := by omega
      obtain ⟨h1, h2, h3⟩ := ih (n / 10) hlt
      rw [toDigitsCore_append]
      refine ⟨?_, ?_, by simp⟩
      · intro c hc
        rcases List.mem_append.mp hc with h | h
        · exact h1 c h
        · simp only [List.mem_singleton] at h
          subst h
          simp [hdig]
      · rw [List.foldl_append, h2]
        simp [hdig]
        omega

/-- An integer as `<<` prints it, followed by a character that is no digit, is
read back as that integer, and the reading stops in front of that character. -/
theorem readInt_toString (i : Int) (c : Char) (rest : List Char) (hc : digitValue c = none) :
    readInt ((toString i).data ++ c :: rest) = some (i, c :: rest) := by
  have hread : ∀ m : Nat, readDigits (Nat.toDigits 10 m ++ c :: rest) 0 = (m, c :: rest) := by
    intro m
    obtain ⟨h1, h2, _⟩ := toDigitsCore_spec (m + 1) m (by omega)
    rw [Nat.toDigits, readDigits_append _ 0 _ h1, h2]
    simp [readDigits, hc]
  have hhead : ∀ m : Nat, ∃ d t, Nat.toDigits 10 m = d :: t ∧ (digitValue d).isSome = true := by
    intro m
    obtain ⟨h1, _, h3⟩ := toDigitsCore_spec (m + 1) m (by omega)
    cases hl : Nat.toDigitsCore 10 (m + 1) m [] with
    | nil => exact absurd hl h3
    | cons d t => exact ⟨d, t, hl, h1 d (by simp [hl])⟩
  have hminus : ∀ d : Char, (digitValue d).isSome = true → d ≠ '-' := by
    intro d hd e
    subst e
    revert hd
    decide
  cases i with
  | ofNat m =>
    have hs : (toString (Int.ofNat m)).data = Nat.toDigits 10 m := rfl
    obtain ⟨d, t, hdt, hd⟩ := hhead m
    rw [hs]
    have := hread m
    rw [hdt] at this ⊢
    simp only [List.cons_append] at this ⊢
    simp only [readInt, hminus d hd, hd, if_true, if_false, this]
    rfl
  | negSucc m =>
    have hs : (toString (Int.negSucc m)).data = '-' :: Nat.toDigits 10 (m + 1) := rfl
    obtain ⟨d, t, hdt, hd⟩ := hhead (m + 1)
    rw [hs]
    have := hread (m + 1)
    rw [hdt] at this ⊢
    simp only [List.cons_append] at this ⊢
    simp only [readInt, hd, if_true, this]
    rfl

/-- A text that starts with `p` is stripped of it. -/
theorem dropPrefix_append (p : List Char) :
    ∀ s : List Char, dropPrefix p (p ++ s) = some s := by
  induction p with
  | nil => intro s; cases s <;> rfl
  | cons c t ih => intro s; simp [dropPrefix, ih]

/-- A plain name followed by the closing quote is read back as it is. -/
theorem readLiteral_plain (name : List Char) (rest : List Char)
    (h : name.all (fun c => c != '"' && c != '\\' && c != '\n') = true) :
    readLiteral (name ++ '"' :: rest) = some (name, rest) := by
  induction name with
  | nil => simp [readLiteral]
  | cons c t ih =>
    simp only [List.all_cons, Bool.and_eq_true, bne_iff_ne, ne_eq] at h
    obtain ⟨⟨⟨h1, h2⟩, h3⟩, ht⟩ := h
    have iht := ih ht
    simp only [List.cons_append, readLiteral, h1, h2, h3, if_false, or_self]
    rw [List.append_eq, iht]

/-- The two coordinates of a point as `asCode` prints them are read back. -/
theorem readPointArgs_text (p : wxPoint) (rest : List Char) :
    readPointArgs ((toString p.x).data ++ ',' :: ((toString p.y).data ++ ')' :: rest))
      = some (p, rest) := by
  have hx := readInt_toString p.x ',' ((toString p.y).data ++ ')' :: rest) (by decide)
  have hy := readInt_toString p.y ')' rest (by decide)
  simp [readPointArgs, hx, hy, dropPrefix]

/-- A plain name and a position as `asCode` prints them behind the opening
quote are read back. -/
theorem readNamedArgs_text (aName : String) (p : wxPoint) (rest : List Char)
    (h : plainName aName = true) :
    readNamedArgs (aName.data ++ '"' :: (String.data ", wxPoint(" ++
      ((toString p.x).data ++ ',' :: ((toString p.y).data ++ ')' ::
        (String.data ",false);\n" ++ rest)))))
      = some (aName, p, rest) := by
  simp [readNamedArgs, readLiteral_plain aName.data _ h, dropPrefix, readPointArgs_text]

/-- The characters of a `newRobot` statement. -/
theorem text_data_newRobot (aName : String) (p : wxPoint) (rest : List Char) :
    (FactoryCall.newRobot aName p).text.data ++ rest
      = String.data "RobotWorld::getRobotWorld().new" ++ ('R' :: (String.data "obot( \"" ++
          (aName.data ++ '"' :: (String.data ", wxPoint(" ++
            ((toString p.x).data ++ ',' :: ((toString p.y).data ++ ')' ::
              (String.data ",false);\n" ++ rest))))))) := by
  have h1 : String.data "RobotWorld::getRobotWorld().newRobot( \""
      = String.data "RobotWorld::getRobotWorld().new" ++ ('R' :: String.data "obot( \"") := by
    decide
  have h2 : String.data "\", wxPoint(" = '"' :: String.data ", wxPoint(" := by decide
  have h3 : String.data "," = [','] := by decide
  have h4 : String.data "),false);\n" = ')' :: String.data ",false);\n" := by decide
  simp only [FactoryCall.text, String.data_append, h1, h2, h3, h4, List.append_assoc,
    List.cons_append, List.nil_append]

/-- The characters of a `newGoal` statement. -/
theorem text_data_newGoal (aName : String) (p : wxPoint) (rest : List Char) :
    (FactoryCall.newGoal aName p).text.data ++ rest
      = String.data "RobotWorld::getRobotWorld().new" ++ ('G' :: (String.data "oal( \"" ++
          (aName.data ++ '"' :: (String.data ", wxPoint(" ++
            ((toString p.x).data ++ ',' :: ((toString p.y).data ++ ')' ::
              (String.data ",false);\n" ++ rest))))))) := by
  have h1 : String.data "RobotWorld::getRobotWorld().newGoal( \""
      = String.data "RobotWorld::getRobotWorld().new" ++ ('G' :: String.data "oal( \"") := by
    decide
  have h2 : String.data "\", wxPoint(" = '"' :: String.data ", wxPoint(" := by decide
  have h3 : String.data "," = [','] := by decide
  have h4 : String.data "),false);\n" = ')' :: String.data ",false);\n" := by decide
  simp only [FactoryCall.text, String.data_append, h1, h2, h3, h4, List.append_assoc,
    List.cons_append, List.nil_append]

/-- The characters of a `newWayPoint` statement. -/
theorem text_data_newWayPoint (aName : String) (p : wxPoint) (rest : List Char) :
    (FactoryCall.newWayPoint aName p).text.data ++ rest
      = String.data "RobotWorld::getRobotWorld().new" ++
          ('W' :: 'a' :: 'y' :: (String.data "Point( \"" ++
          (aName.data ++ '"' :: (String.data ", wxPoint(" ++
            ((toString p.x).data ++ ',' :: ((toString p.y).data ++ ')' ::
              (String.data ",false);\n" ++ rest))))))) := by
  have h1 : String.data "RobotWorld::getRobotWorld().newWayPoint( \""
      = String.data "RobotWorld::getRobotWorld().new" ++
          ('W' :: 'a' :: 'y' :: String.data "Point( \"") := by
    decide
  have h2 : String.data "\", wxPoint(" = '"' :: String.data ", wxPoint(" := by decide
  have h3 : String.data "," = [','] := by decide
  have h4 : String.data "),false);\n" = ')' :: String.data ",false);\n" := by decide
  simp only [FactoryCall.text, String.data_append, h1, h2, h3, h4, List.append_assoc,
    List.cons_append, List.nil_append]

/-- The characters of a `newWall` statement. -/
theorem text_data_newWall (p1 p2 : wxPoint) (rest : List Char) :
    (FactoryCall.newWall p1 p2).text.data ++ rest
      = String.data "RobotWorld::getRobotWorld().new" ++
          ('W' :: 'a' :: 'l' :: (String.data "l( wxPoint(" ++
            ((toString p1.x).data ++ ',' :: ((toString p1.y).data ++ ')' ::
              (String.data ",wxPoint(" ++
                ((toString p2.x).data ++ ',' :: ((toString p2.y).data ++ ')' ::
                  (String.data ",false);\n" ++ rest)))))))) := by
  have h1 : String.data "RobotWorld::getRobotWorld().newWall( "
      = String.data "RobotWorld::getRobotWorld().new" ++
          ('W' :: 'a' :: 'l' :: String.data "l( ") := by
    decide
  have h3 : String.data "," = [','] := by decide
  have h4 : String.data "),false);\n" = ')' :: String.data ",false);\n" := by decide
  have h5 : String.data ")," = [')', ','] := by decide
  simp only [FactoryCall.text, String.data_append, h1, h3, h4, h5, List.append_assoc,
    List.cons_append, List.nil_append]

/-- The statement `asCode` prints for a factory call with a plain name is read
back as that call, and the reading stops behind the statement. -/
theorem readStatement_text (c : FactoryCall) (rest : List Char) (h : c.plain = true) :
    readStatement (c.text.data ++ rest) = some (c, rest) := by
  cases c with
  | newRobot aName p =>
    rw [text_data_newRobot]
    simp only [readStatement, Option.bind_eq_bind, dropPrefix_append, Option.some_bind,
      readNamedArgs_text aName p rest h, Option.pure_def]
  | newWall p1 p2 =>
    rw [text_data_newWall]
    simp only [readStatement, Option.bind_eq_bind, dropPrefix_append, Option.some_bind,
      readPointArgs_text, Option.pure_def]
  | newWayPoint aName p =>
    rw [text_data_newWayPoint]
    simp only [readStatement, Option.bind_eq_bind, dropPrefix_append, Option.some_bind,
      readNamedArgs_text aName p rest h, Option.pure_def]
  | newGoal aName p =>
    rw [text_data_newGoal]
    simp only [readStatement, Option.bind_eq_bind, dropPrefix_append, Option.some_bind,
      readNamedArgs_text aName p rest h, Option.pure_def]

/-- Every statement starts with the letter R, so not with a line break. -/
theorem text_data_head (c : FactoryCall) (rest : List Char) :
    ∃ t, c.text.data ++ rest = 'R' :: t := by
  have h0 : String.data "RobotWorld::getRobotWorld().new"
      = 'R' :: String.data "obotWorld::getRobotWorld().new" := by decide
  cases c with
  | newRobot aName p => rw [text_data_newRobot, h0]; exact ⟨_, rfl⟩
  | newWall p1 p2 => rw [text_data_newWall, h0]; exact ⟨_, rfl⟩
  | newWayPoint aName p => rw [text_data_newWayPoint, h0]; exact ⟨_, rfl⟩
  | newGoal aName p => rw [text_data_newGoal, h0]; exact ⟨_, rfl⟩

/-- The characters of a sequence of statements: those of the first statement,
then those of the others. -/
theorem join_text_data (c : FactoryCall) (cs : List FactoryCall) (rest : List Char) :
    (String.join ((c :: cs).map FactoryCall.text)).data ++ rest
      = c.text.data ++ ((String.join (cs.map FactoryCall.text)).data ++ rest) := by
  simp only [List.map_cons, join_cons, String.data_append, List.append_assoc]

/-- The statements `asCode` prints for factory calls with plain names, closed
by two line breaks, are read back as these calls, given fuel for one step more
than there are statements. -/
theorem readStatements_text (cs : List FactoryCall) :
    ∀ fuel : Nat, cs.length < fuel → (∀ c ∈ cs, c.plain = true) →
      readStatements fuel ((String.join (cs.map FactoryCall.text)).data ++ ['\n', '\n'])
        = some cs := by
  induction cs with
  | nil =>
    intro fuel hfuel _
    cases fuel with
    | zero => simp at hfuel
    | succ f => simp [readStatements, String.join]
  | cons c t ih =>
    intro fuel hfuel hplain
    cases fuel with
    | zero => simp at hfuel
    | succ f =>
      rw [join_text_data]
      obtain ⟨tl, htl⟩ := text_data_head c
        ((String.join (t.map FactoryCall.text)).data ++ ['\n', '\n'])
      have hne : c.text.data ++ ((String.join (t.map FactoryCall.text)).data ++ ['\n', '\n'])
          ≠ ['\n', '\n'] := by
        rw [htl]
        intro e
        have := (List.cons.inj e).1
        revert this
        decide
      have ht := ih f (by simpa using hfuel) (fun x hx => hplain x (by simp [hx]))
      simp only [readStatements, hne, if_false,
        readStatement_text c _ (hplain c (by simp)), ht, Option.map_some']

/-- A text of statements has at least as many characters as statements. -/
theorem join_text_length (cs : List FactoryCall) :
    cs.length ≤ (String.join (cs.map FactoryCall.text)).data.length := by
  induction cs with
  | nil => simp
  | cons c t ih =>
    have h := join_text_data c t []
    simp only [List.append_nil] at h
    rw [h]
    obtain ⟨tl, htl⟩ := text_data_head c []
    simp only [List.append_nil] at htl
    simp only [List.length_append, htl, List.length_cons]
    omega

/-- The text of `asCode` for a store whose calls have plain names is read back
as the factory calls `asCodeCalls` lists. -/
theorem readCode_asCode (w : RobotWorld) (h : ∀ c ∈ asCodeCalls w, c.plain = true) :
    readCode (asCode w) = some (asCodeCalls w) := by
  have hnl : String.data "\n\n" = ['\n', '\n'] := by decide
  rw [asCode_eq_text]
  simp only [readCode, String.data_append, hnl, List.append_assoc]
  rw [dropPrefix_append]
  simp only
  apply readStatements_text _ _ _ h
  have := join_text_length (asCodeCalls w)
  simp only [List.length_append, List.length_cons, List.length_nil]
  omega

/-- In a store with plain names every call `asCodeCalls` lists is plain. -/
theorem PlainNames.calls {w : RobotWorld} (h : PlainNames w) :
    ∀ c ∈ asCodeCalls w, c.plain = true := by
  obtain ⟨hr, hp, hg⟩ := h
  intro c hc
  simp only [asCodeCalls, List.mem_append, List.mem_map] at hc
  rcases hc with ((⟨r, hrm, rfl⟩ | ⟨x, _, rfl⟩) | ⟨q, hqm, rfl⟩) | ⟨g, hgm, rfl⟩
  · exact hr r hrm
  · rfl
  · exact hp q hqm
  · exact hg g hgm

/-- The two sample stores are what factory calls make of a new store. -/
theorem oneQuoted_twoPlain_eq_calls :
    oneQuoted = (newRobot (fresh 0 0)
      "A\", wxPoint(1,2),false);\nRobotWorld::getRobotWorld().newRobot( \"B" ⟨3, 4⟩ false).2 ∧
    twoPlain = (newRobot (newRobot (fresh 0 0) "A" ⟨1, 2⟩ false).2 "B" ⟨3, 4⟩ false).2 := by
  exact ⟨rfl, rfl⟩

set_option maxRecDepth 20000 in
/-- The text of `asCode` for the store with the one robot whose name holds
double quotes is the text for the store with the two robots "A" and "B". -/
theorem asCode_oneQuoted : asCode oneQuoted = asCode twoPlain := by
  decide

/-- C14 as stated fails: names are streamed without escaping. The store
`oneQuoted` holds one robot, yet its text is the text of the store `twoPlain`
with two robots; it spells two `newRobot` calls, for "A" at (1,2) and "B" at
(3,4), and replaying them yields two robots with other names. No way of
reading calls from the text reproduces the number of robots of every store. -/
theorem asCode_text_counterexample :
    oneQuoted.robots.length = 1 ∧
    twoPlain.robots.length = 2 ∧
    asCode oneQuoted = asCode twoPlain ∧
    readCode (asCode oneQuoted)
      = some [FactoryCall.newRobot "A" ⟨1, 2⟩, FactoryCall.newRobot "B" ⟨3, 4⟩] ∧
    (replayAll [FactoryCall.newRobot "A" ⟨1, 2⟩, FactoryCall.newRobot "B" ⟨3, 4⟩]
      (fresh 0 0)).robots.map (fun r => r.name) = ["A", "B"] ∧
    ¬ (∀ w : RobotWorld, ∃ calls, readCode (asCode w) = some calls ∧
        (replayAll calls (fresh 0 0)).robots.length = w.robots.length) ∧
    ¬ (∃ read : String → List FactoryCall, ∀ w : RobotWorld,
        (replayAll (read (asCode w)) (fresh 0 0)).robots.length = w.robots.length) := by
  have hplain : ∀ c ∈ asCodeCalls twoPlain, c.plain = true := by decide
  have hread : readCode (asCode oneQuoted)
      = some [FactoryCall.newRobot "A" ⟨1, 2⟩, FactoryCall.newRobot "B" ⟨3, 4⟩] := by
    rw [asCode_oneQuoted, readCode_asCode twoPlain hplain]
    rfl
  refine ⟨rfl, rfl, asCode_oneQuoted, hread, by decide, ?_, ?_⟩
  · intro h
    obtain ⟨calls, hcalls, hlen⟩ := h oneQuoted
    rw [hread] at hcalls
    cases hcalls
    revert hlen
    decide
  · rintro ⟨read, h⟩
    have h1 := h oneQuoted
    have h2 := h twoPlain
    rw [asCode_oneQuoted] at h1
    rw [h1] at h2
    revert h2
    decide

/-- C14 as amended: round trip of `asCode` for plain names. For every store in
which no robot, way point or goal name holds a double quote, a backslash or a
line break, the text `asCode` emits reads back as a sequence of factory calls,
and making these calls, in order, on a new empty store (any counters) yields
robots, walls, way points and goals of the same number, with the same names,
positions and end points, in the same order within each collection as in the
original store. -/
theorem asCode_text_round_trip (w : RobotWorld) (n : Nat) (k : ObjectId)
    (hplain : PlainNames w) :
    ∃ calls : List FactoryCall, readCode (asCode w) = some calls ∧
      ((replayAll calls (fresh n k)).robots.length = w.robots.length ∧
       (replayAll calls (fresh n k)).walls.length = w.walls.length ∧
       (replayAll calls (fresh n k)).wayPoints.length = w.wayPoints.length ∧
       (replayAll calls (fresh n k)).goals.length = w.goals.length) ∧
      (replayAll calls (fresh n k)).robots.map (fun r => (r.name, r.position))
        = w.robots.map (fun r => (r.name, r.position)) ∧
      (replayAll calls (fresh n k)).walls.map (fun x => (x.point1, x.point2))
        = w.walls.map (fun x => (x.point1, x.point2)) ∧
      (replayAll calls (fresh n k)).wayPoints.map (fun p => (p.name, p.position))
        = w.wayPoints.map (fun p => (p.name, p.position)) ∧
      (replayAll calls (fresh n k)).goals.map (fun g => (g.name, g.position))
        = w.goals.map (fun g => (g.name, g.position)) :=
  ⟨asCodeCalls w, readCode_asCode w hplain.calls, (asCode_round_trip w n k).2⟩

/-- C14 as amended, at a concrete store: the names of `oneOfEach` are plain,
its text reads back as four factory calls, and replaying them on a new store
yields its robot, wall, way point and goal again. -/
theorem asCode_text_round_trip_witness :
    PlainNames oneOfEach ∧
    readCode (asCode oneOfEach)
      = some [FactoryCall.newRobot "Robot" ⟨10, 20⟩, FactoryCall.newWall ⟨0, 0⟩ ⟨0, 100⟩,
          FactoryCall.newWayPoint "WP" ⟨30, 40⟩, FactoryCall.newGoal "Goal" ⟨50, 60⟩] ∧
    (∃ calls : List FactoryCall, readCode (asCode oneOfEach) = some calls ∧
      ((replayAll calls (fresh 0 0)).robots.length = oneOfEach.robots.length ∧
       (replayAll calls (fresh 0 0)).walls.length = oneOfEach.walls.length ∧
       (replayAll calls (fresh 0 0)).wayPoints.length = oneOfEach.wayPoints.length ∧
       (replayAll calls (fresh 0 0)).goals.length = oneOfEach.goals.length) ∧
      (replayAll calls (fresh 0 0)).robots.map (fun r => (r.name, r.position))
        = oneOfEach.robots.map (fun r => (r.name, r.position)) ∧
      (replayAll calls (fresh 0 0)).walls.map (fun x => (x.point1, x.point2))
        = oneOfEach.walls.map (fun x => (x.point1, x.point2)) ∧
      (replayAll calls (fresh 0 0)).wayPoints.map (fun p => (p.name, p.position))
        = oneOfEach.wayPoints.map (fun p => (p.name, p.position)) ∧
      (replayAll calls (fresh 0 0)).goals.map (fun g => (g.name, g.position))
        = oneOfEach.goals.map (fun g => (g.name, g.position))) :=
  have hplain : PlainNames oneOfEach := ⟨by decide, by decide, by decide⟩
  ⟨hplain, (readCode_asCode oneOfEach hplain.calls).trans rfl,
    asCode_text_round_trip oneOfEach 0 0 hplain⟩

/-! ## The local robot is one of the robots -/

/-- A store with the robots and the local robot of a store that satisfies
`LocalInStore` satisfies it too. -/
theorem LocalInStore.of_eq {a b : RobotWorld} (h : LocalInStore b)
    (hr : a.robots = b.robots) (hl : a.localRobot = b.localRobot) : LocalInStore a := by
  intro r hra
  rw [hr]
  exact h r (by rw [← hl]; exact hra)

/-- Appending a robot keeps the local robot among the robots. -/
theorem LocalInStore.newRobot {w : RobotWorld} (h : LocalInStore w) (aName : String)
    (aPosition : wxPoint) (n : Bool) : LocalInStore (RobotWorld.newRobot w aName aPosition n).2 := by
  intro r hr
  have hl : (RobotWorld.newRobot w aName aPosition n).2.localRobot = w.localRobot := by
    cases n <;> simp [RobotWorld.newRobot, notifyObservers]
  have hrs : (RobotWorld.newRobot w aName aPosition n).2.robots
      = w.robots ++ [{ objectId := w.nextObjectId, name := aName, position := aPosition }] := by
    cases n <;> simp [RobotWorld.newRobot, notifyObservers]
  rw [hrs]
  rw [hl] at hr
  exact List.mem_append_left _ (h r hr)

/-- The lazily created local robot is appended to the robots. -/
theorem LocalInStore.getLocalRobot {w : RobotWorld} (h : LocalInStore w) :
    LocalInStore (RobotWorld.getLocalRobot w).2 := by
  cases hl : w.localRobot with
  | none =>
    rw [getLocalRobot_of_none w hl]
    intro r hr
    simp only [Option.some.injEq] at hr
    subst hr
    simp
  | some r0 =>
    rw [getLocalRobot_of_some w r0 hl]
    exact h

/-- Moving a robot moves it in the robots and as the local robot alike. -/
theorem LocalInStore.setPosition {w : RobotWorld} (h : LocalInStore w) (robot : Robot)
    (aPosition : wxPoint) (n : Bool) :
    LocalInStore (RobotWorld.setPosition w robot aPosition n) := by
  intro r hr
  simp only [RobotWorld.setPosition, Option.map_eq_some'] at hr
  obtain ⟨r0, hr0, hmoved⟩ := hr
  simp only [RobotWorld.setPosition, List.mem_map]
  exact ⟨r0, h r0 hr0, hmoved⟩

/-- Every layout keeps the local robot among the robots. -/
theorem LocalInStore.populateWorld {w : RobotWorld} (h : LocalInStore w) (fromRequest : Bool) :
    LocalInStore (populateWorld0 w fromRequest) ∧
    LocalInStore (populateWorld1 w fromRequest) ∧
    LocalInStore (populateWorld2 w fromRequest) ∧
    LocalInStore (populateWorld3 w fromRequest) ∧
    LocalInStore (populateWorld4 w fromRequest) ∧
    LocalInStore (populateWorld5 w fromRequest) := by
  have hgoal : ∀ (s : RobotWorld) (aName : String) (aPosition : wxPoint),
      LocalInStore s → LocalInStore (RobotWorld.newGoal s aName aPosition false).2 :=
    fun s aName aPosition hs => hs.of_eq rfl rfl
  have hwall : ∀ (s : RobotWorld) (aPoint1 aPoint2 : wxPoint),
      LocalInStore s → LocalInStore (RobotWorld.newWall s aPoint1 aPoint2 false).2 :=
    fun s aPoint1 aPoint2 hs => hs.of_eq rfl rfl
  have hlocal : ∀ (aPosition : wxPoint), LocalInStore
      (RobotWorld.setPosition (RobotWorld.getLocalRobot w).2 (RobotWorld.getLocalRobot w).1
        aPosition false) :=
    fun aPosition => h.getLocalRobot.setPosition _ aPosition false
  have hpeer : ∀ (aPosition : wxPoint),
      LocalInStore (RobotWorld.newRobot w "Peer" aPosition false).2 :=
    fun aPosition => h.newRobot "Peer" aPosition false
  cases fromRequest
  · exact ⟨hgoal _ _ _ (hlocal _), hgoal _ _ _ (hlocal _), hgoal _ _ _ (hlocal _),
      hgoal _ _ _ (hlocal _), hwall _ _ _ (hgoal _ _ _ (hlocal _)),
      hwall _ _ _ (hgoal _ _ _ (hlocal _))⟩
  · exact ⟨hgoal _ _ _ (hpeer _), hgoal _ _ _ (hpeer _), hgoal _ _ _ (hpeer _),
      hgoal _ _ _ (hpeer _), hwall _ _ _ (hgoal _ _ _ (hpeer _)),
      hwall _ _ _ (hgoal _ _ _ (hpeer _))⟩

/-- Every call other than `deleteRobot` and `unpopulate(aKeepObjects)` keeps
the local robot among the robots. -/
theorem LocalInStore.run {w : RobotWorld} (h : LocalInStore w) (c : Call)
    (hc : c.removesRobots = false) : LocalInStore (c.run w) := by
  cases c with
  | newRobot a p n => exact h.newRobot a p n
  | newWayPoint a p n =>
    cases n <;> exact h.of_eq rfl rfl
  | newGoal a p n =>
    cases n <;> exact h.of_eq rfl rfl
  | newWall a p n =>
    cases n <;> exact h.of_eq rfl rfl
  | deleteRobot a n => simp [Call.removesRobots] at hc
  | deleteWayPoint a n =>
    rcases deleteWayPoint_cases w a n with ⟨_, heq⟩ | ⟨_, _, hr, _, _, hl⟩
    · simpa [Call.run, heq] using h
    · exact h.of_eq hr hl
  | deleteGoal a n =>
    rcases deleteGoal_cases w a n with ⟨_, heq⟩ | ⟨_, _, hr, _, _, hl⟩
    · simpa [Call.run, heq] using h
    · exact h.of_eq hr hl
  | deleteWall a n =>
    rcases deleteWall_cases w a n with ⟨_, heq⟩ | ⟨_, _, hr, _, _, hl⟩
    · simpa [Call.run, heq] using h
    · exact h.of_eq hr hl
  | getLocalRobot => exact h.getLocalRobot
  | populate k f =>
    obtain ⟨h0, h1, h2, h3, h4, h5⟩ := h.populateWorld f
    obtain ⟨w1, hw1, hcase⟩ := populate_cases w k f
    have hnote : ∀ s : RobotWorld, LocalInStore s → LocalInStore (notifyObservers s) :=
      fun s hs => hs.of_eq rfl rfl
    simp only [Call.run, hw1]
    apply hnote
    rcases hcase with e | e | e | e | e | e | e <;> subst e <;> assumption
  | unpopulate n =>
    intro r hr
    cases n <;> simp [Call.run, RobotWorld.unpopulate, notifyObservers] at hr
  | unpopulateKeeping keep n => simp [Call.removesRobots] at hc

/-- A sequence of calls without `deleteRobot` and `unpopulate(aKeepObjects)`
keeps the local robot among the robots. -/
theorem LocalInStore.runCalls (calls : List Call) :
    ∀ w : RobotWorld, LocalInStore w → (∀ c ∈ calls, c.removesRobots = false) →
      LocalInStore (RobotWorld.runCalls calls w) := by
  induction calls with
  | nil => intro w h _; exact h
  | cons c cs ih =>
    intro w h hcs
    exact ih (c.run w) (h.run c (hcs c (by simp))) (fun d hd => hcs d (by simp [hd]))

/-- C16: "if the local robot is set, it is one of the robots" holds in every
state reached from the empty store by calls of `newRobot`, `newWall`,
`newGoal`, `newWayPoint`, `getLocalRobot`, `populate`, `unpopulate()`,
`deleteWall`, `deleteGoal` and `deleteWayPoint`. It is not preserved by
`deleteRobot` and `unpopulate(aKeepObjects)`, which never change the local
robot member: after `getLocalRobot()` and `unpopulate({})` the robots are
empty, while `getLocalRobot()` still returns the removed robot and does not
add it again. -/
theorem localRobot_in_store :
    (∀ (calls : List Call) (n : Nat) (k : ObjectId),
      (∀ c ∈ calls, c.removesRobots = false) → LocalInStore (runCalls calls (fresh n k))) ∧
    (∀ (w : RobotWorld) (aRobot : Robot) (n : Bool),
      (deleteRobot w aRobot n).localRobot = w.localRobot) ∧
    (∀ (w : RobotWorld) (keep : List ObjectId) (n : Bool),
      (unpopulateKeeping w keep n).localRobot = w.localRobot) ∧
    (LocalInStore (getLocalRobot (fresh 0 0)).2 ∧
      ¬ LocalInStore (deleteRobot (getLocalRobot (fresh 0 0)).2
          { objectId := 0, name := "You", position := ⟨-100, -100⟩ } true) ∧
      ¬ LocalInStore (unpopulateKeeping (getLocalRobot (fresh 0 0)).2 [] true)) ∧
    ((unpopulateKeeping (getLocalRobot (fresh 0 0)).2 [] true).robots = [] ∧
      (getLocalRobot (unpopulateKeeping (getLocalRobot (fresh 0 0)).2 [] true)).1
        = { objectId := 0, name := "You", position := ⟨-100, -100⟩ } ∧
      (getLocalRobot (unpopulateKeeping (getLocalRobot (fresh 0 0)).2 [] true)).2.robots
        = []) := by
  refine ⟨?_, ?_, ?_, ⟨?_, ?_, ?_⟩, ⟨by decide, by decide, by decide⟩⟩
  · intro calls n k hcalls
    have hfresh : LocalInStore (fresh n k) := by
      intro r hr
      simp [fresh] at hr
    exact LocalInStore.runCalls calls (fresh n k) hfresh hcalls
  · intro w aRobot n
    rcases deleteRobot_cases w aRobot n with ⟨_, heq⟩ | ⟨_, _, _, _, _, hl⟩
    · rw [heq]
    · exact hl
  · intro w keep n
    exact (unpopulateKeeping_fields w keep n).2.2.2.2
  · intro r hr
    have : r = { objectId := 0, name := "You", position := ⟨-100, -100⟩ } := by
      have h0 : (getLocalRobot (fresh 0 0)).2.localRobot
          = some { objectId := 0, name := "You", position := ⟨-100, -100⟩ } := by decide
      rw [h0] at hr
      exact (Option.some.inj hr).symm
    subst this
    decide
  · intro h
    have hmem := h { objectId := 0, name := "You", position := ⟨-100, -100⟩ } (by decide)
    revert hmem
    decide
  · intro h
    have hmem := h { objectId := 0, name := "You", position := ⟨-100, -100⟩ } (by decide)
    revert hmem
    decide

/-- C16 at a concrete sequence of calls: `populate(0, false)`, `newRobot`,
`deleteGoal`, `unpopulate()`, `getLocalRobot()` and `populate(3, true)` on a
new store leave the local robot, identifier 3, among the robots. -/
theorem localRobot_in_store_witness :
    (runCalls
      [.populate 0 false, .newRobot "Peer" ⟨1, 1⟩ true,
        .deleteGoal { objectId := 9, name := "YourGoal", position := ⟨0, 0⟩ } true,
        .unpopulate true, .getLocalRobot, .populate 3 true] (fresh 0 0)).localRobot
      = some { objectId := 3, name := "You", position := ⟨-100, -100⟩ } ∧
    LocalInStore (runCalls
      [.populate 0 false, .newRobot "Peer" ⟨1, 1⟩ true,
        .deleteGoal { objectId := 9, name := "YourGoal", position := ⟨0, 0⟩ } true,
        .unpopulate true, .getLocalRobot, .populate 3 true] (fresh 0 0)) :=
  ⟨by decide, localRobot_in_store.1 _ 0 0 (by decide)⟩

/-! ## What populate adds -/

/-- C17: `populate` only adds entities and is not idempotent. For every world
number 0..5 and every store: `populate(n, false)` appends exactly one goal,
named "YourGoal", and keeps the robots, appending one robot, named "You", only
when no local robot was set; `populate(n, true)` appends exactly one robot
named "Peer" and exactly one goal named "PeerGoal" and leaves the local robot
member as it was; the walls already there stay in front and the way points are
unchanged; and a second `populate(n, f)` leaves two more goals than at the
start, of the same name. -/
theorem populate_only_adds (w : RobotWorld) (worldNumber : Int) (fromRequest : Bool)
    (hworld : 0 ≤ worldNumber ∧ worldNumber ≤ 5) :
    ((∃ g : Goal, g.name = "YourGoal" ∧ (populate w worldNumber false).goals = w.goals ++ [g]) ∧
      (w.localRobot = none →
        (populate w worldNumber false).robots.map (fun r => (r.objectId, r.name))
          = w.robots.map (fun r => (r.objectId, r.name)) ++ [(w.nextObjectId, "You")]) ∧
      (w.localRobot ≠ none →
        (populate w worldNumber false).robots.map (fun r => (r.objectId, r.name))
          = w.robots.map (fun r => (r.objectId, r.name)))) ∧
    ((∃ r : Robot, r.name = "Peer" ∧ (populate w worldNumber true).robots = w.robots ++ [r]) ∧
      (∃ g : Goal, g.name = "PeerGoal" ∧
        (populate w worldNumber true).goals = w.goals ++ [g]) ∧
      (populate w worldNumber true).localRobot = w.localRobot) ∧
    (w.walls <+: (populate w worldNumber fromRequest).walls ∧
      (populate w worldNumber fromRequest).wayPoints = w.wayPoints) ∧
    (∃ g1 g2 : Goal, g1.name = g2.name ∧
      (populate (populate w worldNumber fromRequest) worldNumber fromRequest).goals
        = w.goals ++ [g1, g2]) := by
  obtain ⟨h0, h5⟩ := hworld
  have hcases : worldNumber = 0 ∨ worldNumber = 1 ∨ worldNumber = 2 ∨ worldNumber = 3 ∨
      worldNumber = 4 ∨ worldNumber = 5 := by omega
  rcases hcases with e | e | e | e | e | e <;> subst e <;> cases fromRequest <;>
    cases hl : w.localRobot <;>
    simp [populate, populateWorld0, populateWorld1, populateWorld2, populateWorld3,
      populateWorld4, populateWorld5, getLocalRobot, hl, setPosition, RobotWorld.newRobot,
      RobotWorld.newGoal, RobotWorld.newWall, notifyObservers, Function.comp_def] <;>
    intro a _ <;> split <;> simp

/-- C17 at a concrete input: two calls of `populate(0, false)` on a new store
leave two goals named "YourGoal", with identifiers 1 and 2. -/
theorem populate_only_adds_witness :
    ((0 : Int) ≤ 0 ∧ (0 : Int) ≤ 5) ∧
    (populate (populate (fresh 0 0) 0 false) 0 false).goals
      = [{ objectId := 1, name := "YourGoal", position := ⟨450, 440⟩ },
         { objectId := 2, name := "YourGoal", position := ⟨450, 440⟩ }] ∧
    (∃ g1 g2 : Goal, g1.name = g2.name ∧
      (populate (populate (fresh 0 0) 0 false) 0 false).goals
        = (fresh 0 0).goals ++ [g1, g2]) :=
  ⟨by decide, by decide, (populate_only_adds (fresh 0 0) 0 false (by decide)).2.2.2⟩

/-- C18, evaluated on the empty store (any counters): in layout 2 the request
branch puts the robot "Peer" at (40,40) while the local branch puts the local
robot at (20,20), the goals of both branches being at (480,480); so the two
branches of layout 2 do not use the same coordinates. In the layouts 0, 1, 3,
4 and 5 they do, walls included. -/
theorem populateWorld2_branches_differ (n : Nat) (k : ObjectId) :
    (populate (fresh n k) 2 true).robots
      = [{ objectId := k, name := "Peer", position := ⟨40, 40⟩ }] ∧
    (getLocalRobot (populate (fresh n k) 2 false)).1
      = { objectId := k, name := "You", position := ⟨20, 20⟩ } ∧
    (populate (fresh n k) 2 true).goals.map (fun g => g.position) = [⟨480, 480⟩] ∧
    (populate (fresh n k) 2 false).goals.map (fun g => g.position) = [⟨480, 480⟩] ∧
    ¬ BranchesAgree (fresh n k) 2 ∧
    BranchesAgree (fresh n k) 0 ∧
    BranchesAgree (fresh n k) 1 ∧
    BranchesAgree (fresh n k) 3 ∧
    BranchesAgree (fresh n k) 4 ∧
    BranchesAgree (fresh n k) 5 := by
  refine ⟨?_, ?_, ?_, ?_, ?_, ?_, ?_, ?_, ?_, ?_⟩
  · simp [populate, populateWorld2, fresh, RobotWorld.newRobot, RobotWorld.newGoal,
      notifyObservers]
  · simp [populate, populateWorld2, fresh, getLocalRobot, setPosition, RobotWorld.newRobot,
      RobotWorld.newGoal, notifyObservers]
  · simp [populate, populateWorld2, fresh, RobotWorld.newRobot, RobotWorld.newGoal,
      notifyObservers]
  · simp [populate, populateWorld2, fresh, getLocalRobot, setPosition, RobotWorld.newRobot,
      RobotWorld.newGoal, notifyObservers]
  · intro h
    have h1 := h.1
    simp [populate, populateWorld2, fresh, getLocalRobot, setPosition, RobotWorld.newRobot,
      RobotWorld.newGoal, notifyObservers] at h1
  · simp [BranchesAgree, populate, populateWorld0, fresh, getLocalRobot, setPosition,
      RobotWorld.newRobot, RobotWorld.newGoal, notifyObservers]
  · simp [BranchesAgree, populate, populateWorld1, fresh, getLocalRobot, setPosition,
      RobotWorld.newRobot, RobotWorld.newGoal, notifyObservers]
  · simp [BranchesAgree, populate, populateWorld3, fresh, getLocalRobot, setPosition,
      RobotWorld.newRobot, RobotWorld.newGoal, notifyObservers]
  · simp [BranchesAgree, populate, populateWorld4, populateWorld0, fresh, getLocalRobot,
      setPosition, RobotWorld.newRobot, RobotWorld.newGoal, RobotWorld.newWall,
      notifyObservers]
  · simp [BranchesAgree, populate, populateWorld5, populateWorld1, fresh, getLocalRobot,
      setPosition, RobotWorld.newRobot, RobotWorld.newGoal, RobotWorld.newWall,
      notifyObservers]

end RobotWorld

end Model
